import Mathlib

/-!
# The per-frame update of `main.cpp` (dozers, balls, goal cylinders)

A shallow embedding of the "update game state" block of `src/main.cpp`
(lines 350-549) together with the registry construction (lines 178-249) and
the key handling (lines 284-336).

Conventions of the embedding.

* Scalars.  The C++ code computes in `float`.  The embedding is written over an
  arbitrary linearly ordered field `F` and reads every float literal as the
  decimal number it denotes (`0.15f` is `0.15`), with exact arithmetic.
  Instantiating `F` with the rationals makes every definition executable.
* The C math library.  `std::sqrt`, `std::sin`, `std::cos` and `M_PI` are not
  code of this repository; the definitions take them as a record `Libm F`.
  Theorems that need a property of them ask for it as a hypothesis
  (`Libm.SqrtLaw`, `Libm.TrigLaw`) and are instantiated on the real numbers
  with `Real.sqrt`, `Real.sin`, `Real.cos`, `Real.pi`.
* Pointers.  `ball_object_list`, `dozer_object_list` and `cylinder_object_list`
  hold pointers to pairwise distinct scene objects; they are lists of
  `Transform`s here and a pointer is an index into its list.  A function that
  receives two pointers into the same list (`sphere_collision`) is modelled on
  the list and two indices, so that aliasing (`i = j`) behaves as in C++.
* Failing operations.  `v[i]` with `i` out of range is undefined behaviour in
  C++; the embedding returns `none` there.
-/

namespace Game3

/-! ## Data model -/

/-- A `glm::vec3`. -/
structure Vec3 (F : Type) where
  x : F
  y : F
  z : F
deriving DecidableEq, Repr

/-- A `glm::quat` (w is the scalar part). -/
structure Quat (F : Type) where
  w : F
  x : F
  y : F
  z : F
deriving DecidableEq, Repr

/-- The `transform` member of a `Scene::Object`: the base code's position,
rotation and scale, and the `velocity` and `speed` members that `main.cpp`
reads and writes. -/
structure Transform (F : Type) where
  position : Vec3 F
  rotation : Quat F
  scale : Vec3 F
  velocity : Vec3 F
  speed : F
deriving DecidableEq, Repr

/-- The functions of the C math library that `main.cpp` calls, and `M_PI`. -/
structure Libm (F : Type) where
  sqrt : F → F
  sin : F → F
  cos : F → F
  pi : F

section Model

variable {F : Type} [LinearOrderedField F]

/-- Componentwise sum, `glm::vec3 + glm::vec3`. -/
def Vec3.add (a b : Vec3 F) : Vec3 F := ⟨a.x + b.x, a.y + b.y, a.z + b.z⟩

/-- Componentwise difference, `glm::vec3 - glm::vec3`. -/
def Vec3.sub (a b : Vec3 F) : Vec3 F := ⟨a.x - b.x, a.y - b.y, a.z - b.z⟩

/-- Scalar multiple, `float * glm::vec3`. -/
def Vec3.smul (k : F) (a : Vec3 F) : Vec3 F := ⟨k * a.x, k * a.y, k * a.z⟩

/-- Squared Euclidean length of a vector. -/
def Vec3.normSq (a : Vec3 F) : F := a.x ^ 2 + a.y ^ 2 + a.z ^ 2

/-- Squared norm of a quaternion; the quaternion is a unit one when it is 1. -/
def Quat.normSq (q : Quat F) : F := q.w ^ 2 + q.x ^ 2 + q.y ^ 2 + q.z ^ 2

/-- A unit quaternion. -/
def Quat.IsUnit (q : Quat F) : Prop := q.normSq = 1

/-- The function `glm::angleAxis(angle, v)`: `w = cos(angle/2)` and the vector
part is `v * sin(angle/2)`; `v` is used as given. -/
def angleAxis (m : Libm F) (angle : F) (v : Vec3 F) : Quat F :=
  let s := m.sin (angle * 0.5)
  ⟨m.cos (angle * 0.5), v.x * s, v.y * s, v.z * s⟩

/-! ## Constants (lines 204-211) -/

/-- The constant `collision_radius = 0.15f`. -/
def collision_radius : F := 0.15

/-- The constant `score_collision_radius = 0.4f`. -/
def score_collision_radius : F := 0.4

/-- The constant `gravity = 0.0098f`. -/
def gravity : F := 0.0098

/-- The constant `friction = 0.9f`. -/
def friction : F := 0.9

/-! ## Collision lambdas (lines 431-483) -/

/-- The planar distance computed at the head of each collision lambda:
`std::sqrt(std::pow(b.x - a.x, 2) + std::pow(b.y - a.y, 2))`. -/
def planar_distance (m : Libm F) (a b : Vec3 F) : F :=
  m.sqrt ((b.x - a.x) ^ 2 + (b.y - a.y) ^ 2)

/-- The lambda `dozer_collision(dozer, ball)` (lines 431-443).  The dozer is only
read, so the result is the new ball. -/
def dozer_collision (m : Libm F) (dozer ball : Transform F) : Transform F :=
  let distance := planar_distance m dozer.position ball.position
  if distance ≤ 2 * collision_radius then
    let a_to_b := ball.position.sub dozer.position
    let norm_ab := Vec3.smul (m.sqrt (a_to_b.x ^ 2 + a_to_b.y ^ 2 + a_to_b.z ^ 2)) a_to_b
    { ball with
      speed := dozer.speed
      velocity := ball.velocity.add (Vec3.smul (100 * dozer.speed) norm_ab) }
  else ball

/-- The lambda `sphere_collision(ball_1, ball_2)` (lines 446-461) called with
the pointers `balls[i]` and `balls[j]`.  The two assignments are writes through
the pointers, in source order; `a_to_b` and `norm_ab` are computed and not
used. -/
def sphere_collision (m : Libm F) (balls : List (Transform F)) (i j : Nat) :
    Option (List (Transform F)) := do
  let ball_1 ← balls[i]?
  let ball_2 ← balls[j]?
  let distance := planar_distance m ball_1.position ball_2.position
  if distance ≤ 2 * collision_radius then
    let temp := ball_1.speed
    let balls := balls.modify (fun t => { t with speed := temp }) j
    let balls := balls.modify (fun t => { t with speed := 0 }) i
    pure balls
  else
    pure balls

/-- The lambda `goal_collision(goal, ball)` (lines 463-471). -/
def goal_collision (m : Libm F) (goal ball : Transform F) : Bool :=
  let distance := planar_distance m goal.position ball.position
  if distance ≤ collision_radius + score_collision_radius then true else false

/-- The lambda `border_collision(object)` (lines 473-483): four tests in source
order, each on the position and on the velocity left by the previous ones. -/
def border_collision (o : Transform F) : Transform F :=
  let o := if o.position.x > 2.86 then
    { o with velocity := { o.velocity with x := -|o.velocity.x| } } else o
  let o := if o.position.x < -2.86 then
    { o with velocity := { o.velocity with x := |o.velocity.x| } } else o
  let o := if o.position.y > 1.9 then
    { o with velocity := { o.velocity with y := -|o.velocity.y| } } else o
  let o := if o.position.y < -1.9 then
    { o with velocity := { o.velocity with y := |o.velocity.y| } } else o
  o

end Model

/-! ## Vehicle controls -/

/-- A `std::vector<int>(4, 0)` of wheel flags (`dozer1_wheel_dir`,
`dozer2_wheel_dir`); `d0 .. d3` are the entries `[0] .. [3]`. -/
structure WheelDir where
  d0 : Int
  d1 : Int
  d2 : Int
  d3 : Int
deriving DecidableEq, Repr

/-- Every entry is 0 or 1: the only values the key handling ever stores. -/
def WheelDir.Valid (w : WheelDir) : Prop :=
  (w.d0 = 0 ∨ w.d0 = 1) ∧ (w.d1 = 0 ∨ w.d1 = 1) ∧ (w.d2 = 0 ∨ w.d2 = 1) ∧ (w.d3 = 0 ∨ w.d3 = 1)

instance (w : WheelDir) : Decidable w.Valid := by
  unfold WheelDir.Valid; infer_instance

/-- The keys the event loop looks at (lines 284-336). -/
inductive Key where
  | a | z | s | x | semicolon | period | quote | slash | other
deriving DecidableEq, Repr

/-- The part of the program state the update block reads and writes.
`dozer_rotation` is the `std::vector<float>(2, 0.0f)`, a pair here;
`index_delete` is the local of line 485. -/
structure Game (F : Type) where
  dozer_object_list : List (Transform F)
  ball_object_list : List (Transform F)
  cylinder_object_list : List (Transform F)
  dozer1_wheel_dir : WheelDir
  dozer2_wheel_dir : WheelDir
  dozer_rotation : F × F
  index_delete : Int
deriving DecidableEq, Repr

/-- Store `v` in entry `k` of a flag vector (`k` is one of the constants 0..3). -/
def WheelDir.set (w : WheelDir) (k : Nat) (v : Int) : WheelDir :=
  match k with
  | 0 => { w with d0 := v }
  | 1 => { w with d1 := v }
  | 2 => { w with d2 := v }
  | _ => { w with d3 := v }

/-- The flag writes of one key event: `v = 1` for `SDL_KEYDOWN` (lines 284-309),
`v = 0` for `SDL_KEYUP` (lines 313-336). -/
def key_event {F : Type} (v : Int) (k : Key) (g : Game F) : Game F :=
  match k with
  | .a => { g with dozer1_wheel_dir := g.dozer1_wheel_dir.set 0 v }
  | .z => { g with dozer1_wheel_dir := g.dozer1_wheel_dir.set 1 v }
  | .s => { g with dozer1_wheel_dir := g.dozer1_wheel_dir.set 2 v }
  | .x => { g with dozer1_wheel_dir := g.dozer1_wheel_dir.set 3 v }
  | .semicolon => { g with dozer2_wheel_dir := g.dozer2_wheel_dir.set 0 v }
  | .period => { g with dozer2_wheel_dir := g.dozer2_wheel_dir.set 1 v }
  | .quote => { g with dozer2_wheel_dir := g.dozer2_wheel_dir.set 2 v }
  | .slash => { g with dozer2_wheel_dir := g.dozer2_wheel_dir.set 3 v }
  | .other => g

/-- Handler of `SDL_KEYDOWN`. -/
def key_down {F : Type} (k : Key) (g : Game F) : Game F := key_event 1 k g

/-- Handler of `SDL_KEYUP`. -/
def key_up {F : Type} (k : Key) (g : Game F) : Game F := key_event 0 k g

/-! ## Access through the object lists -/

/-- A write `list[i]->... = ...`: apply `f` to the object at index `i`; fails
when `i` is out of range. -/
def poke {α : Type} (l : List α) (i : Nat) (f : α → α) : Option (List α) :=
  if i < l.length then some (l.modify f i) else none

/-- A loop `for (uint32_t i = 0; i < n; i++) body(i)` over a state. -/
def loop {σ : Type} (n : Nat) (body : Nat → σ → Option σ) (s : σ) : Option σ :=
  (List.range n).foldlM (fun s i => body i s) s

section Update

variable {F : Type} [LinearOrderedField F]

/-- The entry `dozer_rotation[i]`, for `i < 2`. -/
def rot_get (r : F × F) (i : Nat) : F := if i = 0 then r.1 else r.2

/-- The update `dozer_rotation[k] = f(dozer_rotation[k])`, for `k < 2`. -/
def rot_modify (k : Nat) (f : F → F) (g : Game F) : Game F :=
  { g with dozer_rotation :=
      if k = 0 then (f g.dozer_rotation.1, g.dozer_rotation.2)
      else (g.dozer_rotation.1, f g.dozer_rotation.2) }

/-- The assignment `dozer_object_list[k]->transform.speed = v`. -/
def set_dozer_speed (k : Nat) (v : F) (g : Game F) : Option (Game F) := do
  let l ← poke g.dozer_object_list k (fun t => { t with speed := v })
  pure { g with dozer_object_list := l }

/-- One control block: lines 357-381 with `w = dozer1_wheel_dir`, `k = 0`, and
lines 384-408 with `w = dozer2_wheel_dir`, `k = 1` (the two blocks differ in
nothing else). -/
def dozer_controls (w : WheelDir) (k : Nat) (g : Game F) : Option (Game F) := do
  let g ← (if w.d0 = 1 then
      (set_dozer_speed k 0.01 g).map (rot_modify k (fun r => r + 0.01))
    else pure g)
  let g ← (if w.d1 = 1 then
      (set_dozer_speed k (-0.01) g).map (rot_modify k (fun r => r - 0.01))
    else pure g)
  let g ← (if w.d2 = 1 then
      (set_dozer_speed k 0.01 g).map (rot_modify k (fun r => r - 0.01))
    else pure g)
  let g ← (if w.d3 = 1 then
      (set_dozer_speed k (-0.01) g).map (rot_modify k (fun r => r + 0.01))
    else pure g)
  if w.d0 = 0 ∧ w.d1 = 0 ∧ w.d2 = 0 ∧ w.d3 = 0 then set_dozer_speed k 0 g else pure g

/-- Lines 413-424 on the dozer `dozer_object_list[i]`, with `ang` of line 410:
velocity, then rotation (which reads the speed), then position. -/
def dozer_move (m : Libm F) (ang : F) (t : Transform F) : Transform F :=
  let t := { t with velocity := ⟨m.cos ang, m.sin ang, 0⟩ }
  let axis : Vec3 F := ⟨0, 0, m.sin ang + m.cos ang⟩
  let t := { t with rotation := angleAxis m (m.sin (ang * t.speed)) axis }
  { t with position := t.position.add (Vec3.smul t.speed ⟨m.cos ang, m.sin ang, 0⟩) }

/-- The body of the loop `for (uint32_t i = 0; i < 2; i++)` (lines 353-426):
both control blocks, then the move of dozer `i`. -/
def dozer_body (m : Libm F) (i : Nat) (g : Game F) : Option (Game F) := do
  let g ← dozer_controls g.dozer1_wheel_dir 0 g
  let g ← dozer_controls g.dozer2_wheel_dir 1 g
  let ang := rot_get g.dozer_rotation i * m.pi
  let l ← poke g.dozer_object_list i (dozer_move m ang)
  pure { g with dozer_object_list := l }

/-- The whole loop of lines 353-426. -/
def update_dozers (m : Libm F) (g : Game F) : Option (Game F) :=
  loop 2 (dozer_body m) g

/-- Lines 501-525 on the ball `ball_object_list[i]`: move, friction (with the
rotation), gravity or ground contact. -/
def ball_integrate (m : Libm F) (b : Transform F) : Transform F :=
  let b := { b with position := b.position.add (Vec3.smul b.speed b.velocity) }
  let b : Transform F :=
    if b.speed ≤ 0.000001 then { b with speed := 0 }
    else
      let b := { b with speed := b.speed * friction }
      { b with rotation := angleAxis m b.speed b.velocity }
  if b.position.z ≥ 0.001 + collision_radius then
    { b with position := { b.position with z := b.position.z - gravity } }
  else if b.speed ≥ 0.001 then
    { b with position := b.position.add ⟨0, 0, 0.0001⟩ }
  else b

/-- The loops `for j < cylinder_object_list.size()` of lines 494-498 and
535-539 for ball `i`: they only set `index_delete`. -/
def goal_loop (m : Libm F) (i : Nat) (g : Game F) : Option (Game F) :=
  loop g.cylinder_object_list.length (fun j g => do
    let goal ← g.cylinder_object_list[j]?
    let ball ← g.ball_object_list[i]?
    if goal_collision m goal ball then pure { g with index_delete := (i : Int) }
    else pure g) g

/-- The body of the loop of lines 487-526 for ball `i`. -/
def ball_body (m : Libm F) (i : Nat) (g : Game F) : Option (Game F) := do
  let g ← loop g.dozer_object_list.length (fun j g => do
    let dozer ← g.dozer_object_list[j]?
    let bl ← poke g.ball_object_list i (dozer_collision m dozer)
    let dl ← poke g.dozer_object_list j border_collision
    pure { g with ball_object_list := bl, dozer_object_list := dl }) g
  let g ← goal_loop m i g
  let bl ← poke g.ball_object_list i (ball_integrate m)
  pure { g with ball_object_list := bl }

/-- The body of the loop of lines 530-541 for ball `i`. -/
def sphere_body (m : Libm F) (i : Nat) (g : Game F) : Option (Game F) := do
  let g ← loop g.ball_object_list.length (fun j g => do
    let bl ← sphere_collision m g.ball_object_list i j
    pure { g with ball_object_list := bl }) g
  let g ← goal_loop m i g
  let bl ← poke g.ball_object_list i border_collision
  pure { g with ball_object_list := bl }

/-- The "update game state" block (lines 350-549) without the camera. -/
def update (m : Libm F) (g : Game F) : Option (Game F) := do
  let g ← update_dozers m g
  let g := { g with index_delete := -1 }
  let g ← loop g.ball_object_list.length (ball_body m) g
  let g ← loop g.ball_object_list.length (sphere_body m) g
  if g.index_delete ≠ -1 then pure { g with index_delete := -1 } else pure g

end Update

/-! ## Registry construction (lines 178-249) -/

section Load

variable {F : Type}

/-- A `SceneEntry` record of `scene.blob` (lines 222-227). -/
structure SceneEntry (F : Type) where
  name_begin : Nat
  name_end : Nat
  position : Vec3 F
  rotation : Quat F
  scale : Vec3 F

/-- The two exceptions the loading code can raise: the `std::runtime_error` of
line 235 and the failure of `meshes.get(name)`. -/
inductive LoadError where
  | name_out_of_range
  | unknown_mesh
deriving DecidableEq, Repr

/-- The test `name.find(pat) != std::string::npos`. -/
def name_contains (name pat : List Char) : Bool :=
  name.tails.any (fun t => pat.isPrefixOf t)

/-- The lambda `object_is_cylinder` (lines 178-183). -/
def object_is_cylinder (name : List Char) : Bool := name_contains name "Cylinder".toList

/-- The lambda `object_is_ball` (lines 185-189). -/
def object_is_ball (name : List Char) : Bool := name_contains name "Ball".toList

/-- The lambda `object_is_dozer` (lines 191-195). -/
def object_is_dozer (name : List Char) : Bool := name_contains name "Circle".toList

/-- The lambda `add_object` (lines 162-176).  `has_mesh` says which names the
mesh library of `Meshes.hpp` knows, and `fresh` is the transform of a newly
constructed `Scene::Object` (of `Scene.hpp`); the result is the transform of
the object appended to `scene.objects`. -/
def add_object (has_mesh : List Char → Bool) (fresh : Transform F) (name : List Char)
    (position : Vec3 F) (rotation : Quat F) (scale : Vec3 F) :
    Except LoadError (Transform F) :=
  if has_mesh name then
    pure { fresh with position := position, rotation := rotation, scale := scale }
  else throw LoadError.unknown_mesh

/-- The body of the loop over the scene entries (lines 233-247). -/
def load_entry (has_mesh : List Char → Bool) (fresh : Transform F) (strings : List Char)
    (g : Game F) (entry : SceneEntry F) : Except LoadError (Game F) :=
  if ¬ (entry.name_begin ≤ entry.name_end ∧ entry.name_end ≤ strings.length) then
    throw LoadError.name_out_of_range
  else do
    let name := (strings.drop entry.name_begin).take (entry.name_end - entry.name_begin)
    if object_is_cylinder name then
      let o ← add_object has_mesh fresh name entry.position entry.rotation entry.scale
      pure { g with cylinder_object_list := g.cylinder_object_list ++ [o] }
    else if object_is_ball name then
      let o ← add_object has_mesh fresh name entry.position entry.rotation entry.scale
      pure { g with ball_object_list := g.ball_object_list ++ [o] }
    else if object_is_dozer name then
      let o ← add_object has_mesh fresh name entry.position entry.rotation entry.scale
      pure { g with dozer_object_list := g.dozer_object_list ++ [o] }
    else
      let _ ← add_object has_mesh fresh name entry.position entry.rotation entry.scale
      pure g

/-- The state before the scene is read (lines 197-203): empty lists, all wheel
flags 0, both headings 0. -/
def empty_game [Zero F] : Game F :=
  { dozer_object_list := []
    ball_object_list := []
    cylinder_object_list := []
    dozer1_wheel_dir := ⟨0, 0, 0, 0⟩
    dozer2_wheel_dir := ⟨0, 0, 0, 0⟩
    dozer_rotation := (0, 0)
    index_delete := -1 }

/-- Reading `scene.blob` (lines 214-249): the state the game loop starts in. -/
def load [Zero F] (has_mesh : List Char → Bool) (fresh : Transform F) (strings : List Char)
    (data : List (SceneEntry F)) : Except LoadError (Game F) :=
  data.foldlM (load_entry has_mesh fresh strings) empty_game

end Load

/-! ## Properties asked of the math library, and the specification's words -/

section Laws

variable {F : Type} [LinearOrderedField F]

/-- The function `m.sqrt` is a square root on the non-negative numbers. -/
def Libm.SqrtLaw (m : Libm F) : Prop :=
  ∀ x : F, 0 ≤ x → 0 ≤ m.sqrt x ∧ m.sqrt x * m.sqrt x = x

/-- The functions `m.sin` and `m.cos` satisfy the Pythagorean identity. -/
def Libm.TrigLaw (m : Libm F) : Prop :=
  ∀ x : F, m.sin x ^ 2 + m.cos x ^ 2 = 1

/-- The squared planar (x, y) distance of two positions. -/
def planar_dist_sq (a b : Vec3 F) : F := (b.x - a.x) ^ 2 + (b.y - a.y) ^ 2

/-- The speed the specification gives a vehicle from its flags: the value of
the highest-indexed active flag, 0 when none is active. -/
def spec_speed (w : WheelDir) : F :=
  if w.d3 = 1 then -0.01
  else if w.d2 = 1 then 0.01
  else if w.d1 = 1 then -0.01
  else if w.d0 = 1 then 0.01
  else 0

/-- The heading change of one control block: the sum of the contributions of
the active flags. -/
def heading_delta (w : WheelDir) : F :=
  (if w.d0 = 1 then 0.01 else 0) - (if w.d1 = 1 then 0.01 else 0)
    - (if w.d2 = 1 then 0.01 else 0) + (if w.d3 = 1 then 0.01 else 0)

/-- The speed one control block leaves, from the flags and the speed before. -/
def control_speed (w : WheelDir) (old : F) : F :=
  if w.d0 = 0 ∧ w.d1 = 0 ∧ w.d2 = 0 ∧ w.d3 = 0 then 0
  else if w.d3 = 1 then -0.01
  else if w.d2 = 1 then 0.01
  else if w.d1 = 1 then -0.01
  else if w.d0 = 1 then 0.01
  else old

end Laws

/-! ## Concrete objects and states used as examples -/

section Examples

variable {F : Type} [LinearOrderedField F]

/-- A transform with the given position, velocity and speed, identity rotation
and unit scale. -/
def mk_transform (position velocity : Vec3 F) (speed : F) : Transform F :=
  { position := position
    rotation := ⟨1, 0, 0, 0⟩
    scale := ⟨1, 1, 1⟩
    velocity := velocity
    speed := speed }

/-- Sphere A of the sphere-sphere scenario: at (0, 0, 0.2), velocity (1, 0, 0),
speed 0.02. -/
def scenario_A : Transform F := mk_transform ⟨0, 0, 0.2⟩ ⟨1, 0, 0⟩ 0.02

/-- Sphere B of the sphere-sphere scenario: at (0.25, 0, 0.2), at rest. -/
def scenario_B : Transform F := mk_transform ⟨0.25, 0, 0.2⟩ ⟨0, 0, 0⟩ 0

/-- A sphere above the ground moving straight up: at (0, 0, 0.2), velocity
(0, 0, 1), speed 0.01. -/
def rising_ball : Transform F := mk_transform ⟨0, 0, 0.2⟩ ⟨0, 0, 1⟩ 0.01

/-- A vehicle at the origin with speed 0.01. -/
def pushing_dozer : Transform F := mk_transform ⟨0, 0, 0⟩ ⟨1, 0, 0⟩ 0.01

/-- A sphere at rest at (0.02, 0.01, 0.02), at 3D distance 0.03 of the origin. -/
def pushed_ball : Transform F := mk_transform ⟨0.02, 0.01, 0.02⟩ ⟨0, 0, 0⟩ 0

/-- An object beyond the right border, at (3, 0, 0), moving further right with
velocity (0.5, 0.25, 0). -/
def escaping_object : Transform F := mk_transform ⟨3, 0, 0⟩ ⟨0.5, 0.25, 0⟩ 0.01

/-- The state of the first frame after the key `a` went down: two vehicles at
rest with identity rotation, no sphere, flag 0 of `dozer1_wheel_dir` set,
headings 0. -/
def first_frame_game : Game F :=
  { dozer_object_list := [mk_transform ⟨0, 0, 0⟩ ⟨1, 0, 0⟩ 0, mk_transform ⟨1, 0, 0⟩ ⟨1, 0, 0⟩ 0]
    ball_object_list := []
    cylinder_object_list := []
    dozer1_wheel_dir := ⟨1, 0, 0, 0⟩
    dozer2_wheel_dir := ⟨0, 0, 0, 0⟩
    dozer_rotation := (0, 0)
    index_delete := -1 }

/-- A state with two idle vehicles far from the rising sphere. -/
def rising_game : Game F :=
  { dozer_object_list := [mk_transform ⟨2, 0, 0⟩ ⟨1, 0, 0⟩ 0, mk_transform ⟨-2, 0, 0⟩ ⟨1, 0, 0⟩ 0]
    ball_object_list := [rising_ball]
    cylinder_object_list := []
    dozer1_wheel_dir := ⟨0, 0, 0, 0⟩
    dozer2_wheel_dir := ⟨0, 0, 0, 0⟩
    dozer_rotation := (0, 0)
    index_delete := -1 }

/-- A state with two idle vehicles of heading 0 far from a falling sphere that
has unit velocity. -/
def idle_game : Game F :=
  { dozer_object_list := [mk_transform ⟨2, 0, 0⟩ ⟨1, 0, 0⟩ 0, mk_transform ⟨-2, 0, 0⟩ ⟨1, 0, 0⟩ 0]
    ball_object_list := [scenario_A]
    cylinder_object_list := []
    dozer1_wheel_dir := ⟨0, 0, 0, 0⟩
    dozer2_wheel_dir := ⟨0, 0, 0, 0⟩
    dozer_rotation := (0, 0)
    index_delete := -1 }

/-- A state with the keys `a` and `s` held (flags 0 and 2 of `dozer1_wheel_dir`)
and no key of the second vehicle; the vehicles enter with speeds 0.01 and
0.02. -/
def held_keys_game : Game F :=
  { dozer_object_list := [pushing_dozer, mk_transform ⟨1, 0, 0⟩ ⟨1, 0, 0⟩ 0.02]
    ball_object_list := []
    cylinder_object_list := []
    dozer1_wheel_dir := ⟨1, 0, 1, 0⟩
    dozer2_wheel_dir := ⟨0, 0, 0, 0⟩
    dozer_rotation := (0, 0)
    index_delete := -1 }

/-- A state with two idle vehicles far from three spheres: A and B of the
scenario, in contact, and a third moving sphere on its own. -/
def contact_game : Game F :=
  { dozer_object_list := [mk_transform ⟨2, 0, 0⟩ ⟨1, 0, 0⟩ 0, mk_transform ⟨-2, 0, 0⟩ ⟨1, 0, 0⟩ 0]
    ball_object_list := [scenario_A, scenario_B, mk_transform ⟨1, 1, 0.2⟩ ⟨0, 1, 0⟩ 0.05]
    cylinder_object_list := []
    dozer1_wheel_dir := ⟨0, 0, 0, 0⟩
    dozer2_wheel_dir := ⟨0, 0, 0, 0⟩
    dozer_rotation := (0, 0)
    index_delete := -1 }

/-- A state whose first vehicle is beyond the right border, at x = 3, with
heading 0, the key `a` held and the velocity field `v`; one sphere, so that
`border_collision` runs on the vehicles. -/
def border_game (v : Vec3 F) : Game F :=
  { dozer_object_list := [mk_transform ⟨3, 0, 0⟩ v 0, mk_transform ⟨-2, 0, 0⟩ ⟨1, 0, 0⟩ 0]
    ball_object_list := [scenario_A]
    cylinder_object_list := []
    dozer1_wheel_dir := ⟨1, 0, 0, 0⟩
    dozer2_wheel_dir := ⟨0, 0, 0, 0⟩
    dozer_rotation := (0, 0)
    index_delete := -1 }

/-- A state with two idle vehicles far from one sphere of speed 0.01 whose
velocity (2, 0, 0) has length 2; every rotation is the identity. -/
def spinning_game : Game F :=
  { dozer_object_list := [mk_transform ⟨2, 0, 0⟩ ⟨1, 0, 0⟩ 0, mk_transform ⟨-2, 0, 0⟩ ⟨1, 0, 0⟩ 0]
    ball_object_list := [mk_transform ⟨0, 0, 0.2⟩ ⟨2, 0, 0⟩ 0.01]
    cylinder_object_list := []
    dozer1_wheel_dir := ⟨0, 0, 0, 0⟩
    dozer2_wheel_dir := ⟨0, 0, 0, 0⟩
    dozer_rotation := (0, 0)
    index_delete := -1 }

/-- A state with two idle vehicles of heading 0.02 far from one sphere at rest
whose velocity (2, 0, 0) has length 2; every rotation is the identity. -/
def resting_game : Game F :=
  { dozer_object_list := [mk_transform ⟨2, 0, 0⟩ ⟨1, 0, 0⟩ 0, mk_transform ⟨-2, 0, 0⟩ ⟨1, 0, 0⟩ 0]
    ball_object_list := [mk_transform ⟨0, 0, 0.2⟩ ⟨2, 0, 0⟩ 0]
    cylinder_object_list := []
    dozer1_wheel_dir := ⟨0, 0, 0, 0⟩
    dozer2_wheel_dir := ⟨0, 0, 0, 0⟩
    dozer_rotation := (0.02, 0.02)
    index_delete := -1 }

end Examples

/-! ## Auxiliary definitions used in the proofs -/

section Aux

variable {F : Type} [LinearOrderedField F]

/-- The state after `dozer_object_list[k]->transform.speed = v`, for `k` in range. -/
def with_dozer_speed (k : Nat) (v : F) (g : Game F) : Game F :=
  { g with dozer_object_list := (g.dozer_object_list.modify (fun t => { t with speed := v }) k) }

/-- The state one control block leaves, as a pure function. -/
def controls_result (w : WheelDir) (k : Nat) (g : Game F) : Game F :=
  let g := if w.d0 = 1 then rot_modify k (fun r => r + 0.01) (with_dozer_speed k 0.01 g) else g
  let g := if w.d1 = 1 then rot_modify k (fun r => r - 0.01) (with_dozer_speed k (-0.01) g) else g
  let g := if w.d2 = 1 then rot_modify k (fun r => r - 0.01) (with_dozer_speed k 0.01 g) else g
  let g := if w.d3 = 1 then rot_modify k (fun r => r + 0.01) (with_dozer_speed k (-0.01) g) else g
  if w.d0 = 0 ∧ w.d1 = 0 ∧ w.d2 = 0 ∧ w.d3 = 0 then with_dozer_speed k 0 g else g

/-- Every element of a list satisfies the predicate of its index. -/
def AllIdx {α : Type} (P : Nat → α → Prop) (l : List α) : Prop :=
  ∀ k a, l[k]? = some a → P k a

/-- The parts of the state that the ball loops never change. -/
structure Shape (g g' : Game F) : Prop where
  dozers : g'.dozer_object_list.length = g.dozer_object_list.length
  balls : g'.ball_object_list.length = g.ball_object_list.length
  cylinders : g'.cylinder_object_list = g.cylinder_object_list
  wheel1 : g'.dozer1_wheel_dir = g.dozer1_wheel_dir
  wheel2 : g'.dozer2_wheel_dir = g.dozer2_wheel_dir
  rotation : g'.dozer_rotation = g.dozer_rotation

/-- The ball predicate during the loop of lines 487-526: balls before index `i`
are integrated, the others are not yet. -/
def Phase {α : Type} (P0 P1 : Nat → α → Prop) (i : Nat) : Nat → α → Prop :=
  fun k a => (k < i → P1 k a) ∧ (i ≤ k → P0 k a)

/-- The contact test of `sphere_collision` on the balls at indices `j` and `k`
of a list. -/
def InContact (m : Libm F) (l : List (Transform F)) (j k : Nat) : Prop :=
  ∃ a b, l[j]? = some a ∧ l[k]? = some b ∧
    planar_distance m a.position b.position ≤ 2 * collision_radius

/-- The list `l` has the length of `l0` and the same position at every index. -/
def SamePositions (l0 l : List (Transform F)) : Prop :=
  l.length = l0.length ∧
    ∀ (k : Nat) (a b : Transform F), l0[k]? = some a → l[k]? = some b → b.position = a.position

/-- The column invariant of the sphere-sphere pass, in row `r` before column
`j`: a ball of speed other than 0 is at an index `k >= r`, touches no ball of
an earlier row, is not the ball of the row once its own column is passed, and
does not touch the ball of the row if its column is passed. -/
def ColumnInv (m : Libm F) (l0 : List (Transform F)) (r j : Nat) (l : List (Transform F)) :
    Prop :=
  SamePositions l0 l ∧
    ∀ (k : Nat) (b : Transform F), l[k]? = some b → b.speed ≠ 0 →
      r ≤ k ∧ (∀ j', j' < r → ¬ InContact m l0 j' k) ∧ (k = r → j ≤ r) ∧
        (r < k → k < j → ¬ InContact m l0 r k)

/-- The row invariant of the sphere-sphere pass before row `r`: a ball of speed
other than 0 is at an index `k >= r` and touches no ball of an earlier row. -/
def RowInv (m : Libm F) (l0 : List (Transform F)) (r : Nat) (l : List (Transform F)) : Prop :=
  SamePositions l0 l ∧
    ∀ (k : Nat) (b : Transform F), l[k]? = some b → b.speed ≠ 0 →
      r ≤ k ∧ ∀ j', j' < r → ¬ InContact m l0 j' k

/-- The vehicles of `g'` are those of `g` up to rotation, scale and velocity:
as many, with the same positions and speeds, under the same wheel flags and
headings. -/
structure SameVehicleMotion (g g' : Game F) : Prop where
  dozers : g'.dozer_object_list.length = g.dozer_object_list.length
  motion : ∀ (k : Nat) (d d' : Transform F), g.dozer_object_list[k]? = some d →
    g'.dozer_object_list[k]? = some d' → d'.position = d.position ∧ d'.speed = d.speed
  wheel1 : g'.dozer1_wheel_dir = g.dozer1_wheel_dir
  wheel2 : g'.dozer2_wheel_dir = g.dozer2_wheel_dir
  heading : g'.dozer_rotation = g.dozer_rotation

/-- The angle `ang` of line 410 in the loop iteration that moves vehicle `k`
(`k < 2`), from the state before the frame: vehicle 0 is moved after one run of
its control block, vehicle 1 after two. -/
def move_angle (m : Libm F) (g : Game F) (k : Nat) : F :=
  if k = 0 then (g.dozer_rotation.1 + heading_delta g.dozer1_wheel_dir) * m.pi
  else (g.dozer_rotation.2 + heading_delta g.dozer2_wheel_dir
    + heading_delta g.dozer2_wheel_dir) * m.pi

/-- The speed of vehicle `k` after a frame, from its speed `s` before it. -/
def vehicle_speed_after (g : Game F) (k : Nat) (s : F) : F :=
  if k = 0 then control_speed g.dozer1_wheel_dir s
  else if k = 1 then control_speed g.dozer2_wheel_dir s
  else s

/-- The position of vehicle `k` after a frame, from its position `p` and speed
`s` before it: advanced by the new speed times (cos ang, sin ang, 0) for the
first two vehicles, kept for the others. -/
def vehicle_position_after (m : Libm F) (g : Game F) (k : Nat) (p : Vec3 F) (s : F) : Vec3 F :=
  if k < 2 then
    p.add (Vec3.smul (vehicle_speed_after g k s)
      ⟨m.cos (move_angle m g k), m.sin (move_angle m g k), 0⟩)
  else p

/-- The rotation of vehicle `k` after a frame, from its rotation `q` and speed
`s` before it: the quaternion of lines 416-419 for the first two vehicles, kept
for the others. -/
def vehicle_rotation_after (m : Libm F) (g : Game F) (k : Nat) (q : Quat F) (s : F) : Quat F :=
  if k < 2 then
    angleAxis m (m.sin (move_angle m g k * vehicle_speed_after g k s))
      ⟨0, 0, m.sin (move_angle m g k) + m.cos (move_angle m g k)⟩
  else q

/-- The headings after a frame, from the state before it. -/
def headings_after (g : Game F) : F × F :=
  (g.dozer_rotation.1 + heading_delta g.dozer1_wheel_dir + heading_delta g.dozer1_wheel_dir,
   g.dozer_rotation.2 + heading_delta g.dozer2_wheel_dir + heading_delta g.dozer2_wheel_dir)

/-- The ball after the vehicle tests of its pass through the loop of lines
488-493: `dozer_collision` with every vehicle of `D`, in order. -/
def pushed (m : Libm F) (D : List (Transform F)) (b : Transform F) : Transform F :=
  D.foldl (fun b d => dozer_collision m d b) b

/-- The list `l` has the length of `D` and, at every index, the position and
the speed of `D`. -/
def SameMotion (D l : List (Transform F)) : Prop :=
  l.length = D.length ∧
    ∀ (k : Nat) (c d : Transform F), D[k]? = some c → l[k]? = some d →
      d.position = c.position ∧ d.speed = c.speed

/-- Run `n` consecutive frames of a step function. -/
def frames {σ : Type} (step : σ → Option σ) : Nat → σ → Option σ
  | 0, s => some s
  | n + 1, s => (frames step n s).bind step

end Aux

/-! ## Theorems -/

section Theorems

variable {F : Type} [LinearOrderedField F]

/-! ### The math library on the real numbers -/

theorem real_sqrtLaw : (⟨Real.sqrt, Real.sin, Real.cos, Real.pi⟩ : Libm ℝ).SqrtLaw :=
  fun x hx => ⟨Real.sqrt_nonneg x, Real.mul_self_sqrt hx⟩

theorem real_trigLaw : (⟨Real.sqrt, Real.sin, Real.cos, Real.pi⟩ : Libm ℝ).TrigLaw :=
  fun x => Real.sin_sq_add_cos_sq x

/-! ### Loops and writes through the lists -/

theorem loop_zero {σ : Type} (body : Nat → σ → Option σ) (s : σ) : loop 0 body s = some s := by
  simp [loop]

theorem loop_succ {σ : Type} (n : Nat) (body : Nat → σ → Option σ) (s : σ) :
    loop (n + 1) body s = (loop n body s).bind (body n) := by
  simp [loop, List.range_succ, List.foldlM_append]

/-- Total correctness of a counted loop from an invariant. -/
theorem loop_invariant {σ : Type} (n : Nat) (body : Nat → σ → Option σ) (I : Nat → σ → Prop)
    (s : σ) (h0 : I 0 s)
    (hstep : ∀ i s, i < n → I i s → ∃ s', body i s = some s' ∧ I (i + 1) s') :
    ∃ s', loop n body s = some s' ∧ I n s' := by
  induction n with
  | zero => exact ⟨s, loop_zero body s, h0⟩
  | succ n ih =>
    obtain ⟨s1, h1, hI⟩ := ih (fun i s hi => hstep i s (Nat.lt_succ_of_lt hi))
    obtain ⟨s2, h2, hI2⟩ := hstep n s1 (Nat.lt_succ_self n) hI
    exact ⟨s2, by rw [loop_succ, h1]; exact h2, hI2⟩

theorem poke_eq_some {α : Type} (l : List α) (i : Nat) (f : α → α) (h : i < l.length) :
    poke l i f = some (l.modify f i) := by
  simp [poke, h]

theorem poke_eq_none {α : Type} (l : List α) (i : Nat) (f : α → α) (h : l.length ≤ i) :
    poke l i f = none := by
  simp [poke, Nat.not_lt.2 h]

theorem control_speed_idem (w : WheelDir) (old : F) :
    control_speed w (control_speed w old) = control_speed w old := by
  unfold control_speed
  split_ifs <;> rfl

omit [LinearOrderedField F] in
theorem set_dozer_speed_eq (k : Nat) (v : F) (g : Game F)
    (hk : k < g.dozer_object_list.length) :
    set_dozer_speed k v g = some (with_dozer_speed k v g) := by
  simp [set_dozer_speed, poke, hk, with_dozer_speed]

omit [LinearOrderedField F] in
theorem flag_block_eq (c : Prop) [Decidable c] (k : Nat) (v : F) (f : F → F) (g : Game F)
    (hk : k < g.dozer_object_list.length) :
    (if c then (set_dozer_speed k v g).map (rot_modify k f) else pure g) =
      some (if c then rot_modify k f (with_dozer_speed k v g) else g) := by
  split_ifs
  · rw [set_dozer_speed_eq k v g hk]; rfl
  · rfl

omit [LinearOrderedField F] in
theorem flag_block_length (c : Prop) [Decidable c] (k : Nat) (v : F) (f : F → F) (g : Game F) :
    (if c then rot_modify k f (with_dozer_speed k v g) else g).dozer_object_list.length
      = g.dozer_object_list.length := by
  split_ifs <;> simp [rot_modify, with_dozer_speed]

theorem set_zero_block_eq (c : Prop) [Decidable c] (k : Nat) (g : Game F)
    (hk : k < g.dozer_object_list.length) :
    (if c then set_dozer_speed k 0 g else pure g) =
      some (if c then with_dozer_speed k 0 g else g) := by
  split_ifs
  · rw [set_dozer_speed_eq k 0 g hk]
  · rfl

theorem dozer_controls_eq_result (w : WheelDir) (k : Nat) (g : Game F)
    (hk : k < g.dozer_object_list.length) :
    dozer_controls w k g = some (controls_result w k g) := by
  unfold dozer_controls controls_result
  simp only [Option.bind_eq_bind]
  have hk1 := hk
  rw [← flag_block_length (w.d0 = 1) k 0.01 (fun r => r + 0.01) g] at hk1
  have hk2 := hk1
  rw [← flag_block_length (w.d1 = 1) k (-0.01) (fun r => r - 0.01) _] at hk2
  have hk3 := hk2
  rw [← flag_block_length (w.d2 = 1) k 0.01 (fun r => r - 0.01) _] at hk3
  have hk4 := hk3
  rw [← flag_block_length (w.d3 = 1) k (-0.01) (fun r => r + 0.01) _] at hk4
  rw [flag_block_eq _ k _ _ g hk, Option.some_bind]
  rw [flag_block_eq _ k _ _ _ hk1, Option.some_bind]
  rw [flag_block_eq _ k _ _ _ hk2, Option.some_bind]
  rw [flag_block_eq _ k _ _ _ hk3, Option.some_bind]
  rw [set_zero_block_eq _ k _ hk4]

theorem controls_result_eq (w : WheelDir) (k : Nat) (g : Game F) :
    controls_result w k g =
      { g with
        dozer_object_list :=
          (g.dozer_object_list.modify (fun t => { t with speed := control_speed w t.speed }) k)
        dozer_rotation :=
          if k = 0 then (g.dozer_rotation.1 + heading_delta w, g.dozer_rotation.2)
          else (g.dozer_rotation.1, g.dozer_rotation.2 + heading_delta w) } := by
  obtain ⟨dl, bl, cl, w1, w2, ⟨r0, r1⟩, idx⟩ := g
  unfold controls_result
  by_cases hk0 : k = 0 <;>
  by_cases h0 : w.d0 = 1 <;> by_cases h1 : w.d1 = 1 <;> by_cases h2 : w.d2 = 1 <;>
    by_cases h3 : w.d3 = 1 <;>
    simp only [hk0, h0, h1, h2, h3, if_true, if_false, rot_modify, with_dozer_speed, control_speed,
      heading_delta, List.modify_modify_eq, Function.comp_def, one_ne_zero, false_and, and_false,
      and_self, Game.mk.injEq, Prod.mk.injEq, true_and, and_true] <;>
    first
      | done
      | (ring_nf; done)
      | (by_cases hz : (w.d0 = 0 ∧ w.d1 = 0 ∧ w.d2 = 0 ∧ w.d3 = 0)
         · simp only [hz, and_self, if_true, Game.mk.injEq, Prod.mk.injEq, and_true, true_and]
           ring_nf
         · simp only [hz, if_false, Game.mk.injEq, Prod.mk.injEq, and_true, true_and]
           exact ⟨(List.modify_id _ _).symm, by ring_nf⟩)

theorem dozer_controls_eq (w : WheelDir) (k : Nat) (g : Game F)
    (hk : k < g.dozer_object_list.length) :
    dozer_controls w k g = some
      { g with
        dozer_object_list :=
          (g.dozer_object_list.modify (fun t => { t with speed := control_speed w t.speed }) k)
        dozer_rotation :=
          if k = 0 then (g.dozer_rotation.1 + heading_delta w, g.dozer_rotation.2)
          else (g.dozer_rotation.1, g.dozer_rotation.2 + heading_delta w) } := by
  rw [dozer_controls_eq_result w k g hk, controls_result_eq]

theorem dozer_move_speed (m : Libm F) (ang : F) (t : Transform F) :
    (dozer_move m ang t).speed = t.speed := rfl

theorem dozer_body_eq (m : Libm F) (i : Nat) (d0 d1 : Transform F)
    (rest bl cl : List (Transform F)) (w1 w2 : WheelDir) (r0 r1 : F) (idx : Int)
    (hi : i < 2) :
    dozer_body m i ⟨d0 :: d1 :: rest, bl, cl, w1, w2, (r0, r1), idx⟩ = some
      ⟨(({ d0 with speed := control_speed w1 d0.speed } ::
          { d1 with speed := control_speed w2 d1.speed } :: rest).modify
          (dozer_move m (rot_get (r0 + heading_delta w1, r1 + heading_delta w2) i * m.pi)) i),
        bl, cl, w1, w2, (r0 + heading_delta w1, r1 + heading_delta w2), idx⟩ := by
  unfold dozer_body
  simp only [Option.bind_eq_bind]
  rw [dozer_controls_eq _ 0 _ (by simp), Option.some_bind]
  rw [dozer_controls_eq _ 1 _ (by simp), Option.some_bind]
  rw [poke_eq_some _ i _ (by simp; omega)]
  simp

theorem update_dozers_eq (m : Libm F) (d0 d1 : Transform F)
    (rest bl cl : List (Transform F)) (w1 w2 : WheelDir) (r0 r1 : F) (idx : Int) :
    update_dozers m ⟨d0 :: d1 :: rest, bl, cl, w1, w2, (r0, r1), idx⟩ = some
      ⟨dozer_move m ((r0 + heading_delta w1) * m.pi)
          { d0 with speed := control_speed w1 d0.speed } ::
        dozer_move m ((r1 + heading_delta w2 + heading_delta w2) * m.pi)
          { d1 with speed := control_speed w2 d1.speed } :: rest,
        bl, cl, w1, w2,
        (r0 + heading_delta w1 + heading_delta w1, r1 + heading_delta w2 + heading_delta w2),
        idx⟩ := by
  unfold update_dozers
  rw [loop_succ, loop_succ, loop_zero]
  simp only [Option.some_bind]
  rw [dozer_body_eq m 0 _ _ _ _ _ _ _ _ _ _ (by decide)]
  simp only [Option.some_bind, List.modify_zero_cons, rot_get, if_true]
  rw [dozer_body_eq m 1 _ _ _ _ _ _ _ _ _ _ (by decide)]
  simp [rot_get, dozer_move_speed, control_speed_idem]
  rfl

/-! ### Vehicle controls -/

theorem control_speed_eq_spec (w : WheelDir) (hw : w.Valid) (old : F) :
    control_speed w old = spec_speed w := by
  obtain ⟨h0, h1, h2, h3⟩ := hw
  unfold control_speed spec_speed
  rcases h0 with h0 | h0 <;> rcases h1 with h1 | h1 <;> rcases h2 with h2 | h2 <;>
    rcases h3 with h3 | h3 <;> simp [h0, h1, h2, h3]

theorem wheelDir_set_valid (w : WheelDir) (hw : w.Valid) (k : Nat) (v : Int)
    (hv : v = 0 ∨ v = 1) : (w.set k v).Valid := by
  obtain ⟨h0, h1, h2, h3⟩ := hw
  unfold WheelDir.set
  split <;> exact ⟨by assumption, by assumption, by assumption, by assumption⟩

omit [LinearOrderedField F] in
/-- The key handling keeps every wheel flag 0 or 1. -/
theorem key_event_valid (v : Int) (hv : v = 0 ∨ v = 1) (k : Key) (g : Game F)
    (h1 : g.dozer1_wheel_dir.Valid) (h2 : g.dozer2_wheel_dir.Valid) :
    (key_event v k g).dozer1_wheel_dir.Valid ∧ (key_event v k g).dozer2_wheel_dir.Valid := by
  cases k <;> simp only [key_event] <;>
    first
      | exact ⟨wheelDir_set_valid _ h1 _ _ hv, h2⟩
      | exact ⟨h1, wheelDir_set_valid _ h2 _ _ hv⟩
      | exact ⟨h1, h2⟩

theorem dozer_controls_speed (w : WheelDir) (hw : w.Valid) (k : Nat) (g : Game F)
    (hk : k < g.dozer_object_list.length) :
    ∃ g' d, dozer_controls w k g = some g' ∧ g'.dozer_object_list[k]? = some d ∧
      d.speed = spec_speed w := by
  refine ⟨_, { g.dozer_object_list[k] with speed := spec_speed w }, dozer_controls_eq w k g hk, ?_, rfl⟩
  simp [List.getElem?_modify, hk, control_speed_eq_spec w hw]


/-- C4: with wheel flags that are 0 or 1 and at least two vehicles, the speed a
vehicle has after its control block, and after the whole vehicle loop of a
frame, is spec_speed of its four flags: 0 when no flag is active, otherwise
the value of the highest-indexed active flag; it does not depend on the speed
before and is never a sum. -/
theorem vehicle_speed_from_flags (m : Libm F) (g : Game F)
    (h1 : g.dozer1_wheel_dir.Valid) (h2 : g.dozer2_wheel_dir.Valid)
    (hlen : 2 ≤ g.dozer_object_list.length) :
    (∃ g' a, dozer_controls g.dozer1_wheel_dir 0 g = some g' ∧
      g'.dozer_object_list[0]? = some a ∧ a.speed = spec_speed g.dozer1_wheel_dir) ∧
    (∃ g' b, dozer_controls g.dozer2_wheel_dir 1 g = some g' ∧
      g'.dozer_object_list[1]? = some b ∧ b.speed = spec_speed g.dozer2_wheel_dir) ∧
    (∃ g' a b, update_dozers m g = some g' ∧
      g'.dozer_object_list[0]? = some a ∧ a.speed = spec_speed g.dozer1_wheel_dir ∧
      g'.dozer_object_list[1]? = some b ∧ b.speed = spec_speed g.dozer2_wheel_dir) := by
  refine ⟨dozer_controls_speed _ h1 0 g (by omega), dozer_controls_speed _ h2 1 g (by omega), ?_⟩
  obtain ⟨dl, bl, cl, w1, w2, ⟨r0, r1⟩, idx⟩ := g
  match dl, hlen with
  | d0 :: d1 :: rest, _ =>
    refine ⟨_, dozer_move m ((r0 + heading_delta w1) * m.pi)
        { d0 with speed := control_speed w1 d0.speed },
      dozer_move m ((r1 + heading_delta w2 + heading_delta w2) * m.pi)
        { d1 with speed := control_speed w2 d1.speed },
      update_dozers_eq m d0 d1 rest bl cl w1 w2 r0 r1 idx, by simp, ?_, by simp, ?_⟩
    · exact control_speed_eq_spec w1 h1 _
    · exact control_speed_eq_spec w2 h2 _

/-- C4 on the real numbers: keys `a` and `s` held for the first vehicle (flags 0
and 2, prior speed 0.01), none for the second (prior speed 0.02). -/
theorem vehicle_speed_from_flags_witness :
    (∃ (g' : Game ℝ) (a : Transform ℝ),
      dozer_controls (held_keys_game : Game ℝ).dozer1_wheel_dir 0 held_keys_game = some g' ∧
      g'.dozer_object_list[0]? = some a ∧
      a.speed = spec_speed (held_keys_game : Game ℝ).dozer1_wheel_dir) ∧
    (∃ (g' : Game ℝ) (b : Transform ℝ),
      dozer_controls (held_keys_game : Game ℝ).dozer2_wheel_dir 1 held_keys_game = some g' ∧
      g'.dozer_object_list[1]? = some b ∧
      b.speed = spec_speed (held_keys_game : Game ℝ).dozer2_wheel_dir) ∧
    (∃ (g' : Game ℝ) (a b : Transform ℝ),
      update_dozers ⟨Real.sqrt, Real.sin, Real.cos, Real.pi⟩ held_keys_game = some g' ∧
      g'.dozer_object_list[0]? = some a ∧
      a.speed = spec_speed (held_keys_game : Game ℝ).dozer1_wheel_dir ∧
      g'.dozer_object_list[1]? = some b ∧
      b.speed = spec_speed (held_keys_game : Game ℝ).dozer2_wheel_dir) :=
  vehicle_speed_from_flags ⟨Real.sqrt, Real.sin, Real.cos, Real.pi⟩ held_keys_game
    (by decide) (by decide) (by simp [held_keys_game])

/-! ### The wheel flags of a loaded state -/

omit [LinearOrderedField F] in
theorem load_entry_wheel_dir (has_mesh : List Char → Bool) (fresh : Transform F)
    (strings : List Char) (g g' : Game F) (entry : SceneEntry F)
    (h : load_entry has_mesh fresh strings g entry = Except.ok g') :
    g'.dozer1_wheel_dir = g.dozer1_wheel_dir ∧ g'.dozer2_wheel_dir = g.dozer2_wheel_dir := by
  by_cases hr : entry.name_begin ≤ entry.name_end ∧ entry.name_end ≤ strings.length <;>
  by_cases hm : has_mesh
    ((strings.drop entry.name_begin).take (entry.name_end - entry.name_begin)) = true <;>
  by_cases hc : object_is_cylinder
    ((strings.drop entry.name_begin).take (entry.name_end - entry.name_begin)) = true <;>
  by_cases hb : object_is_ball
    ((strings.drop entry.name_begin).take (entry.name_end - entry.name_begin)) = true <;>
  by_cases hd : object_is_dozer
    ((strings.drop entry.name_begin).take (entry.name_end - entry.name_begin)) = true <;>
  simp [load_entry, add_object, hr, hm, hc, hb, hd, pure, throw, throwThe,
    MonadExceptOf.throw, Except.pure, bind, Except.bind] at h <;>
  (subst h; exact ⟨rfl, rfl⟩)

/-- Every state that `load` returns has all wheel flags 0. -/
theorem load_wheel_dir_valid (has_mesh : List Char → Bool) (fresh : Transform F)
    (strings : List Char) (data : List (SceneEntry F)) (g : Game F)
    (h : load has_mesh fresh strings data = Except.ok g) :
    g.dozer1_wheel_dir.Valid ∧ g.dozer2_wheel_dir.Valid := by
  have key : ∀ (data : List (SceneEntry F)) (g0 g : Game F),
      data.foldlM (load_entry has_mesh fresh strings) g0 = Except.ok g →
      g.dozer1_wheel_dir = g0.dozer1_wheel_dir ∧ g.dozer2_wheel_dir = g0.dozer2_wheel_dir := by
    intro data
    induction data with
    | nil =>
      intro g0 g h
      simp only [List.foldlM_nil] at h
      cases h
      exact ⟨rfl, rfl⟩
    | cons e rest ih =>
      intro g0 g h
      simp only [List.foldlM_cons] at h
      cases he : load_entry has_mesh fresh strings g0 e with
      | error err => rw [he] at h; cases h
      | ok g1 =>
        rw [he] at h
        obtain ⟨h1, h2⟩ := ih g1 g h
        obtain ⟨h3, h4⟩ := load_entry_wheel_dir has_mesh fresh strings g0 g1 e he
        exact ⟨h1.trans h3, h2.trans h4⟩
  obtain ⟨h1, h2⟩ := key data empty_game g h
  rw [h1, h2]
  exact ⟨by simp [empty_game, WheelDir.Valid], by simp [empty_game, WheelDir.Valid]⟩

/-! ### Headings over several frames -/

theorem frames_succ {σ : Type} (step : σ → Option σ) (n : Nat) (s : σ) :
    frames step (n + 1) s = (frames step n s).bind step := rfl

/-- The headings after `n` runs of the vehicle loop. -/
theorem frames_update_dozers_heading (m : Libm F) (w1 w2 : WheelDir) (bl cl : List (Transform F))
    (idx : Int) (r0 r1 : F) (n : Nat) (d0 d1 : Transform F) (rest : List (Transform F)) :
    ∃ e0 e1, frames (update_dozers m) n ⟨d0 :: d1 :: rest, bl, cl, w1, w2, (r0, r1), idx⟩ =
      some ⟨e0 :: e1 :: rest, bl, cl, w1, w2,
        (r0 + n * (2 * heading_delta w1), r1 + n * (2 * heading_delta w2)), idx⟩ := by
  induction n with
  | zero => exact ⟨d0, d1, by simp [frames]⟩
  | succ n ih =>
    obtain ⟨e0, e1, h⟩ := ih
    rw [frames_succ, h, Option.some_bind, update_dozers_eq]
    refine ⟨dozer_move m ((r0 + n * (2 * heading_delta w1) + heading_delta w1) * m.pi)
        { e0 with speed := control_speed w1 e0.speed },
      dozer_move m ((r1 + n * (2 * heading_delta w2) + heading_delta w2 + heading_delta w2) * m.pi)
        { e1 with speed := control_speed w2 e1.speed }, ?_⟩
    simp only [Option.some.injEq, Game.mk.injEq, Prod.mk.injEq, true_and, and_true]
    constructor <;> push_cast <;> ring

/-- C3: with only the turn-positive flag (flag 0) of a vehicle active, one run of
the vehicle loop adds 0.01 to that vehicle's heading twice, because both
control blocks sit inside the loop `for i < 2`: from heading 0 the heading of
dozer 0, and of dozer 1, after n frames is n * 0.02; after 100 frames it is 2,
not 1; and the velocities set in the first frame are those of the headings
0.01 (dozer 0, moved between the two additions) and 0.02 (dozer 1). -/
theorem turn_positive_heading_after_frames (m : Libm F) (d0 d1 : Transform F)
    (rest bl cl : List (Transform F)) (w : WheelDir) (r : F) (idx : Int) :
    (∀ n : Nat, ∃ g', frames (update_dozers m) n
        ⟨d0 :: d1 :: rest, bl, cl, ⟨1, 0, 0, 0⟩, w, (0, r), idx⟩ = some g' ∧
      g'.dozer_rotation.1 = (n : F) * 0.02) ∧
    (∀ n : Nat, ∃ g', frames (update_dozers m) n
        ⟨d0 :: d1 :: rest, bl, cl, w, ⟨1, 0, 0, 0⟩, (r, 0), idx⟩ = some g' ∧
      g'.dozer_rotation.2 = (n : F) * 0.02) ∧
    (∃ g', frames (update_dozers m) 100
        ⟨d0 :: d1 :: rest, bl, cl, ⟨1, 0, 0, 0⟩, ⟨1, 0, 0, 0⟩, (0, 0), idx⟩ = some g' ∧
      g'.dozer_rotation = (2, 2) ∧ g'.dozer_rotation.1 ≠ 1 ∧ g'.dozer_rotation.2 ≠ 1) ∧
    (∃ g' e0 e1, update_dozers m
        ⟨d0 :: d1 :: rest, bl, cl, ⟨1, 0, 0, 0⟩, ⟨1, 0, 0, 0⟩, (0, 0), idx⟩ = some g' ∧
      g'.dozer_rotation = (0.02, 0.02) ∧ g'.dozer_object_list = e0 :: e1 :: rest ∧
      e0.velocity = ⟨m.cos (0.01 * m.pi), m.sin (0.01 * m.pi), 0⟩ ∧
      e1.velocity = ⟨m.cos (0.02 * m.pi), m.sin (0.02 * m.pi), 0⟩) := by
  have hd : heading_delta (F := F) ⟨1, 0, 0, 0⟩ = 0.01 := by norm_num [heading_delta]
  refine ⟨?_, ?_, ?_, ?_⟩
  · intro n
    obtain ⟨e0, e1, h⟩ := frames_update_dozers_heading m ⟨1, 0, 0, 0⟩ w bl cl idx
      (0 : F) r n d0 d1 rest
    refine ⟨_, h, ?_⟩
    simp only [hd]; ring
  · intro n
    obtain ⟨e0, e1, h⟩ := frames_update_dozers_heading m w ⟨1, 0, 0, 0⟩ bl cl idx
      r (0 : F) n d0 d1 rest
    refine ⟨_, h, ?_⟩
    simp only [hd]; ring
  · obtain ⟨e0, e1, h⟩ := frames_update_dozers_heading m ⟨1, 0, 0, 0⟩ ⟨1, 0, 0, 0⟩ bl cl idx
      (0 : F) 0 100 d0 d1 rest
    refine ⟨_, h, ?_⟩
    simp only [hd]
    norm_num
  · refine ⟨_, _, _, update_dozers_eq m d0 d1 rest bl cl _ _ 0 0 idx, ?_, rfl, ?_, ?_⟩
    · simp only [hd]; norm_num
    · simp only [hd, dozer_move]; norm_num
    · simp only [hd, dozer_move]; norm_num

/-! ### The contact test -/

theorem planar_distance_le_iff (m : Libm F) (hm : m.SqrtLaw) (a b : Vec3 F) (r : F)
    (hr : 0 ≤ r) : planar_distance m a b ≤ r ↔ planar_dist_sq a b ≤ r ^ 2 := by
  unfold planar_distance planar_dist_sq
  have hx : 0 ≤ (b.x - a.x) ^ 2 + (b.y - a.y) ^ 2 := by positivity
  obtain ⟨h0, h1⟩ := hm _ hx
  constructor
  · intro h
    rw [← h1]
    nlinarith
  · intro h
    by_contra hc
    push_neg at hc
    rw [← h1] at h
    nlinarith

theorem two_radius_nonneg : (0 : F) ≤ 2 * collision_radius := by
  unfold collision_radius; norm_num

/-! ### Sphere against sphere -/

/-- C1: for two distinct spheres A = balls[i] and B = balls[j] in planar contact
(squared planar distance at most (2 * collision_radius)^2), sphere_collision
leaves B with A's former speed and A with speed 0, every other field of A and B
and every other sphere unchanged; out of contact it changes nothing. -/
theorem sphere_collision_transfers_speed (m : Libm F) (hm : m.SqrtLaw)
    (balls : List (Transform F)) (i j : Nat) (A B : Transform F)
    (hij : i ≠ j) (hA : balls[i]? = some A) (hB : balls[j]? = some B) :
    (planar_dist_sq A.position B.position ≤ (2 * collision_radius) ^ 2 →
      ∃ balls', sphere_collision m balls i j = some balls' ∧
        balls'[i]? = some { A with speed := 0 } ∧
        balls'[j]? = some { B with speed := A.speed } ∧
        ∀ k, k ≠ i → k ≠ j → balls'[k]? = balls[k]?) ∧
    ((2 * collision_radius) ^ 2 < planar_dist_sq A.position B.position →
      sphere_collision m balls i j = some balls) := by
  have key := planar_distance_le_iff m hm A.position B.position _ two_radius_nonneg
  constructor
  · intro h
    refine ⟨(balls.modify (fun t => { t with speed := A.speed }) j).modify
      (fun t => { t with speed := 0 }) i, ?_, ?_, ?_, ?_⟩
    · simp only [sphere_collision, hA, hB, Option.bind_eq_bind, Option.some_bind, Option.pure_def]
      rw [if_pos (key.2 h)]
    · simp [List.getElem?_modify, hA, hij, Ne.symm hij]
    · simp [List.getElem?_modify, hB, hij, Ne.symm hij]
    · intro k hki hkj
      simp [List.getElem?_modify, Ne.symm hki, Ne.symm hkj]
  · intro h
    simp only [sphere_collision, hA, hB, Option.bind_eq_bind, Option.some_bind, Option.pure_def]
    rw [if_neg]
    rw [key]; exact not_le.2 h

/-- The scenario of C1 on the real numbers: A at (0, 0, 0.2) with speed 0.02 and
B at (0.25, 0, 0.2) at rest; afterwards B has speed 0.02 and A speed 0. -/
theorem sphere_collision_transfers_speed_witness :
    ∃ balls' : List (Transform ℝ),
      sphere_collision ⟨Real.sqrt, Real.sin, Real.cos, Real.pi⟩ [scenario_A, scenario_B] 0 1
          = some balls' ∧
      balls'[0]? = some { (scenario_A : Transform ℝ) with speed := 0 } ∧
      balls'[1]? = some { (scenario_B : Transform ℝ) with speed := 0.02 } ∧
      ∀ k, k ≠ 0 → k ≠ 1 → balls'[k]? = [(scenario_A : Transform ℝ), scenario_B][k]? :=
  (sphere_collision_transfers_speed _ real_sqrtLaw [scenario_A, scenario_B] 0 1
    scenario_A scenario_B (by decide) rfl rfl).1
    (by norm_num [planar_dist_sq, scenario_A, scenario_B, mk_transform, collision_radius])

/-- C2: the self-pair call sphere_collision(b, b) of the sphere-sphere pass is
not a no-op: the planar distance of b to itself is 0, the test fires, and b is
left with speed 0 whatever its speed was (its other fields and the other
spheres are unchanged). -/
theorem sphere_collision_self_zeroes_speed (m : Libm F) (hm : m.SqrtLaw)
    (balls : List (Transform F)) (i : Nat) (b : Transform F) (hb : balls[i]? = some b) :
    ∃ balls', sphere_collision m balls i i = some balls' ∧
      balls'[i]? = some { b with speed := 0 } ∧
      ∀ k, k ≠ i → balls'[k]? = balls[k]? := by
  have key := planar_distance_le_iff m hm b.position b.position _ two_radius_nonneg
  have hc : planar_distance m b.position b.position ≤ 2 * collision_radius := by
    rw [key]; norm_num [planar_dist_sq, collision_radius]
  refine ⟨(balls.modify (fun t => { t with speed := b.speed }) i).modify
    (fun t => { t with speed := 0 }) i, ?_, ?_, ?_⟩
  · simp only [sphere_collision, hb, Option.bind_eq_bind, Option.some_bind, Option.pure_def]
    rw [if_pos hc]
  · simp [List.getElem?_modify, hb]
  · intro k hk
    simp [List.getElem?_modify, Ne.symm hk]

/-- The failing input of C2 on the real numbers: the single sphere A of the
scenario, of speed 0.02, has speed 0 after sphere_collision(A, A). -/
theorem sphere_collision_self_zeroes_speed_witness :
    (scenario_A : Transform ℝ).speed ≠ 0 ∧
    ∃ balls' : List (Transform ℝ),
      sphere_collision ⟨Real.sqrt, Real.sin, Real.cos, Real.pi⟩ [scenario_A] 0 0 = some balls' ∧
      balls'[0]? = some { (scenario_A : Transform ℝ) with speed := 0 } ∧
      ∀ k, k ≠ 0 → balls'[k]? = [(scenario_A : Transform ℝ)][k]? :=
  ⟨by norm_num [scenario_A, mk_transform],
   sphere_collision_self_zeroes_speed _ real_sqrtLaw [scenario_A] 0 scenario_A rfl⟩

/-! ### Border -/

/-- C7: border_collision is idempotent and only changes the signs of velocity.x
and velocity.y: position, rotation, scale, speed and velocity.z are kept; for
x > 2.86 the new velocity.x is -|velocity.x| (non-positive, also after a second
application), for x < -2.86 it is |velocity.x|, the same for y at 1.9 and -1.9,
and inside the borders the component is kept. -/
theorem border_collision_idempotent (o : Transform F) :
    border_collision (border_collision o) = border_collision o ∧
    (border_collision o).position = o.position ∧
    (border_collision o).rotation = o.rotation ∧
    (border_collision o).scale = o.scale ∧
    (border_collision o).speed = o.speed ∧
    (border_collision o).velocity.z = o.velocity.z ∧
    (2.86 < o.position.x → (border_collision o).velocity.x = -|o.velocity.x| ∧
      (border_collision o).velocity.x ≤ 0 ∧
      (border_collision (border_collision o)).velocity.x ≤ 0) ∧
    (o.position.x < -2.86 → (border_collision o).velocity.x = |o.velocity.x|) ∧
    (1.9 < o.position.y → (border_collision o).velocity.y = -|o.velocity.y|) ∧
    (o.position.y < -1.9 → (border_collision o).velocity.y = |o.velocity.y|) ∧
    (-2.86 ≤ o.position.x → o.position.x ≤ 2.86 →
      (border_collision o).velocity.x = o.velocity.x) ∧
    (-1.9 ≤ o.position.y → o.position.y ≤ 1.9 →
      (border_collision o).velocity.y = o.velocity.y) := by
  obtain ⟨⟨px, py, pz⟩, rot, sc, ⟨vx, vy, vz⟩, sp⟩ := o
  by_cases h1 : px > 2.86 <;> by_cases h2 : px < -2.86 <;>
    by_cases h3 : py > 1.9 <;> by_cases h4 : py < -1.9 <;>
    simp only [border_collision, h1, h2, h3, h4, if_true, if_false, abs_neg, abs_abs, neg_neg,
      true_and, and_true, implies_true, forall_const, false_implies, neg_nonpos, abs_nonneg,
      and_self, true_implies] <;>
    first
      | done
      | (exfalso; linarith)
      | (intros; first | rfl | (exfalso; linarith) | linarith)
      | (refine ⟨?_, ?_⟩ <;> intros <;> first | rfl | (exfalso; linarith))


/-- C7 at an object beyond the right border with velocity.x = 0.5: the new
velocity.x is -|0.5| and stays non-positive. -/
theorem border_collision_idempotent_witness :
    (border_collision (escaping_object : Transform ℝ)).velocity.x
        = -|(escaping_object : Transform ℝ).velocity.x| ∧
      (border_collision (escaping_object : Transform ℝ)).velocity.x ≤ 0 ∧
      (border_collision (border_collision (escaping_object : Transform ℝ))).velocity.x ≤ 0 :=
  (border_collision_idempotent (escaping_object : Transform ℝ)).2.2.2.2.2.2.1
    (by norm_num [escaping_object, mk_transform])

/-! ### Integration of a sphere -/

theorem ball_integrate_position (m : Libm F) (b : Transform F) :
    (ball_integrate m b).position =
      if 0.001 + collision_radius ≤ b.position.z + b.speed * b.velocity.z then
        ⟨b.position.x + b.speed * b.velocity.x, b.position.y + b.speed * b.velocity.y,
          b.position.z + b.speed * b.velocity.z - gravity⟩
      else if 0.001 ≤ (ball_integrate m b).speed then
        ⟨b.position.x + b.speed * b.velocity.x + 0, b.position.y + b.speed * b.velocity.y + 0,
          b.position.z + b.speed * b.velocity.z + 0.0001⟩
      else
        ⟨b.position.x + b.speed * b.velocity.x, b.position.y + b.speed * b.velocity.y,
          b.position.z + b.speed * b.velocity.z⟩ := by
  unfold ball_integrate
  by_cases h1 : b.speed ≤ 0.000001 <;>
    by_cases h2 : 0.001 + collision_radius ≤ b.position.z + b.speed * b.velocity.z <;>
    simp only [h1, h2, if_true, if_false, Vec3.add, Vec3.smul, ge_iff_le] <;>
    split_ifs <;> rfl

theorem ball_integrate_speed_eq (m : Libm F) (b : Transform F) :
    (ball_integrate m b).speed = if b.speed ≤ 0.000001 then 0 else b.speed * friction := by
  unfold ball_integrate
  by_cases h1 : b.speed ≤ 0.000001 <;>
    simp only [h1, if_true, if_false] <;>
    split_ifs <;> rfl

/-- The height after the integration step: gravity is tested and applied on the
moved height z + speed * velocity.z. -/
theorem ball_integrate_gravity (m : Libm F) (b : Transform F) :
    (0.001 + collision_radius ≤ b.position.z + b.speed * b.velocity.z →
      (ball_integrate m b).position.z = b.position.z + b.speed * b.velocity.z - gravity) ∧
    (b.speed * b.velocity.z = 0 → collision_radius + 0.001 ≤ b.position.z →
      (ball_integrate m b).position.z = b.position.z - gravity) := by
  constructor
  · intro h
    rw [ball_integrate_position, if_pos h]
  · intro h0 h
    have h' : 0.001 + collision_radius ≤ b.position.z + b.speed * b.velocity.z := by
      rw [h0]; linarith
    rw [ball_integrate_position, if_pos h', h0, add_zero]

/-- C6: the integration step leaves speed 0 when the incoming speed is at most
0.000001 (negative speeds included) and speed * 0.9 otherwise, which is then
strictly between 0 and the incoming speed; speed 0 stays 0. -/
theorem ball_integrate_friction (m : Libm F) (b : Transform F) :
    (b.speed ≤ 0.000001 → (ball_integrate m b).speed = 0) ∧
    (0.000001 < b.speed →
      (ball_integrate m b).speed = b.speed * 0.9 ∧
      0 < (ball_integrate m b).speed ∧ (ball_integrate m b).speed < b.speed) ∧
    (b.speed = 0 → (ball_integrate m b).speed = 0) := by
  refine ⟨?_, ?_, ?_⟩
  · intro h
    rw [ball_integrate_speed_eq, if_pos h]
  · intro h
    have hp : (0 : F) < b.speed := lt_trans (by norm_num) h
    rw [ball_integrate_speed_eq, if_neg (not_le.2 h)]
    unfold friction
    refine ⟨rfl, ?_, ?_⟩
    · positivity
    · linarith
  · intro h
    rw [ball_integrate_speed_eq, if_pos (by rw [h]; norm_num)]

/-- C6 at sphere A of the scenario, of speed 0.02. -/
theorem ball_integrate_friction_witness :
    (ball_integrate ⟨Real.sqrt, Real.sin, Real.cos, Real.pi⟩ (scenario_A : Transform ℝ)).speed
        = (scenario_A : Transform ℝ).speed * 0.9 ∧
      0 < (ball_integrate ⟨Real.sqrt, Real.sin, Real.cos, Real.pi⟩
        (scenario_A : Transform ℝ)).speed ∧
      (ball_integrate ⟨Real.sqrt, Real.sin, Real.cos, Real.pi⟩ (scenario_A : Transform ℝ)).speed
        < (scenario_A : Transform ℝ).speed :=
  (ball_integrate_friction ⟨Real.sqrt, Real.sin, Real.cos, Real.pi⟩
    (scenario_A : Transform ℝ)).2.1 (by norm_num [scenario_A, mk_transform])

/-! ### Vehicle against sphere -/

/-- The 3D length asked of `m.sqrt` is the only non-negative square root. -/
theorem sqrt_unique (m : Libm F) (hm : m.SqrtLaw) (x L : F) (hL : 0 ≤ L) (h : L ^ 2 = x) :
    m.sqrt x = L := by
  have hx : 0 ≤ x := by rw [← h]; positivity
  obtain ⟨h0, h1⟩ := hm x hx
  have : m.sqrt x ^ 2 = L ^ 2 := by rw [h, sq, h1]
  exact (pow_left_inj₀ h0 hL two_ne_zero).1 this

/-- C8: dozer_collision(d, b) fires exactly when the squared planar distance is at
most (2 * collision_radius)^2.  When it fires the ball gets the dozer's speed
and its velocity grows by 100 * d.speed * L * p, with p = b.position -
d.position the 3D offset and L its 3D length (L >= 0, L^2 = |p|^2): the offset
times its length; the ball's position, rotation and scale are kept and the
dozer is only read.  When it does not fire the ball is unchanged. -/
theorem dozer_collision_response (m : Libm F) (hm : m.SqrtLaw) (d b : Transform F) :
    (planar_dist_sq d.position b.position ≤ (2 * collision_radius) ^ 2 →
      ∀ L : F, 0 ≤ L → L ^ 2 = (b.position.sub d.position).normSq →
        dozer_collision m d b =
          { b with
            speed := d.speed
            velocity :=
              ⟨b.velocity.x + 100 * d.speed * (L * (b.position.x - d.position.x)),
               b.velocity.y + 100 * d.speed * (L * (b.position.y - d.position.y)),
               b.velocity.z + 100 * d.speed * (L * (b.position.z - d.position.z))⟩ }) ∧
    ((2 * collision_radius) ^ 2 < planar_dist_sq d.position b.position →
      dozer_collision m d b = b) := by
  have key := planar_distance_le_iff m hm d.position b.position _ two_radius_nonneg
  constructor
  · intro h L hL hsq
    have hs := sqrt_unique m hm _ L hL hsq
    unfold Vec3.normSq at hs
    simp only [dozer_collision, if_pos (key.2 h), hs]
    rfl
  · intro h
    simp only [dozer_collision]
    rw [if_neg]
    rw [key]; exact not_le.2 h


/-- C8 at a dozer of speed 0.01 at the origin and a ball at (0.02, 0.01, 0.02),
whose offset has length 0.03. -/
theorem dozer_collision_response_witness :
    dozer_collision ⟨Real.sqrt, Real.sin, Real.cos, Real.pi⟩
        (pushing_dozer : Transform ℝ) pushed_ball =
      { (pushed_ball : Transform ℝ) with
        speed := (pushing_dozer : Transform ℝ).speed
        velocity :=
          ⟨(pushed_ball : Transform ℝ).velocity.x + 100 * (pushing_dozer : Transform ℝ).speed *
              (0.03 * ((pushed_ball : Transform ℝ).position.x
                - (pushing_dozer : Transform ℝ).position.x)),
           (pushed_ball : Transform ℝ).velocity.y + 100 * (pushing_dozer : Transform ℝ).speed *
              (0.03 * ((pushed_ball : Transform ℝ).position.y
                - (pushing_dozer : Transform ℝ).position.y)),
           (pushed_ball : Transform ℝ).velocity.z + 100 * (pushing_dozer : Transform ℝ).speed *
              (0.03 * ((pushed_ball : Transform ℝ).position.z
                - (pushing_dozer : Transform ℝ).position.z))⟩ } :=
  (dozer_collision_response _ real_sqrtLaw (pushing_dozer : Transform ℝ) pushed_ball).1
    (by norm_num [planar_dist_sq, pushing_dozer, pushed_ball, mk_transform, collision_radius])
    0.03 (by norm_num)
    (by norm_num [Vec3.normSq, Vec3.sub, pushing_dozer, pushed_ball, mk_transform])

/-! ### Invariants through the frame -/

theorem allIdx_modify {α : Type} (P P' : Nat → α → Prop) (l : List α) (i : Nat) (f : α → α)
    (h : AllIdx P l) (hi : ∀ a, P i a → P' i (f a)) (hk : ∀ k a, k ≠ i → P k a → P' k a) :
    AllIdx P' (l.modify f i) := by
  intro k a hka
  by_cases hki : i = k
  · subst hki
    rw [List.getElem?_modify_eq] at hka
    cases hl : l[i]? with
    | none => rw [hl] at hka; simp at hka
    | some b =>
      rw [hl] at hka
      simp only [Option.map_eq_map, Option.map_some', Option.some.injEq] at hka
      rw [← hka]
      exact hi b (h i b hl)
  · rw [List.getElem?_modify_ne _ _ hki] at hka
    exact hk k a (Ne.symm hki) (h k a hka)

theorem sphere_collision_preserves (m : Libm F) (P : Nat → Transform F → Prop)
    (hP : ∀ k b s, P k b → P k { b with speed := s })
    (bl : List (Transform F)) (i j : Nat) (hi : i < bl.length) (hj : j < bl.length)
    (h : AllIdx P bl) :
    ∃ bl', sphere_collision m bl i j = some bl' ∧ bl'.length = bl.length ∧ AllIdx P bl' := by
  unfold sphere_collision
  simp only [List.getElem?_eq_getElem hi, List.getElem?_eq_getElem hj, Option.bind_eq_bind,
    Option.some_bind, Option.pure_def]
  split_ifs
  · refine ⟨_, rfl, by simp, ?_⟩
    apply allIdx_modify P P _ i _ _ (fun a ha => hP i a _ ha) (fun k a _ ha => ha)
    exact allIdx_modify P P _ j _ h (fun a ha => hP j a _ ha) (fun k a _ ha => ha)
  · exact ⟨bl, rfl, rfl, h⟩

theorem goal_loop_spec (m : Libm F) (i : Nat) (g : Game F) (hi : i < g.ball_object_list.length) :
    ∃ idx, goal_loop m i g = some { g with index_delete := idx } := by
  unfold goal_loop
  obtain ⟨g', h, hI⟩ := loop_invariant g.cylinder_object_list.length
    (fun j g' => do
      let goal ← g'.cylinder_object_list[j]?
      let ball ← g'.ball_object_list[i]?
      if goal_collision m goal ball then pure { g' with index_delete := (i : Int) }
      else pure g')
    (fun _ g' => ∃ idx, g' = { g with index_delete := idx }) g ⟨g.index_delete, rfl⟩
    (by
      rintro j g' hj ⟨idx, rfl⟩
      simp only [List.getElem?_eq_getElem hj, List.getElem?_eq_getElem hi, Option.bind_eq_bind,
        Option.some_bind, Option.pure_def]
      split_ifs
      · exact ⟨_, rfl, _, rfl⟩
      · exact ⟨_, rfl, _, rfl⟩)
  obtain ⟨idx, rfl⟩ := hI
  exact ⟨idx, h⟩

omit [LinearOrderedField F] in
theorem Shape.refl (g : Game F) : Shape g g := ⟨rfl, rfl, rfl, rfl, rfl, rfl⟩

omit [LinearOrderedField F] in
theorem Shape.trans {g g' g'' : Game F} (h : Shape g g') (h' : Shape g' g'') : Shape g g'' :=
  ⟨h'.dozers.trans h.dozers, h'.balls.trans h.balls, h'.cylinders.trans h.cylinders,
    h'.wheel1.trans h.wheel1, h'.wheel2.trans h.wheel2, h'.rotation.trans h.rotation⟩

theorem ball_body_preserves (m : Libm F) (PD PB0 PB1 : Nat → Transform F → Prop)
    (hd : ∀ k d, PD k d → PD k (border_collision d))
    (hb1 : ∀ j d k b, PD j d → PB0 k b → PB0 k (dozer_collision m d b))
    (hb2 : ∀ k b, PB0 k b → PB1 k (ball_integrate m b))
    (i : Nat) (g : Game F) (hi : i < g.ball_object_list.length)
    (hD : AllIdx PD g.dozer_object_list) (hB : AllIdx (Phase PB0 PB1 i) g.ball_object_list) :
    ∃ g', ball_body m i g = some g' ∧ Shape g g' ∧ AllIdx PD g'.dozer_object_list ∧
      AllIdx (Phase PB0 PB1 (i + 1)) g'.ball_object_list := by
  unfold ball_body
  obtain ⟨g1, h1, hS1, hD1, hB1⟩ := loop_invariant g.dozer_object_list.length
    (fun j g' => do
      let dozer ← g'.dozer_object_list[j]?
      let bl ← poke g'.ball_object_list i (dozer_collision m dozer)
      let dl ← poke g'.dozer_object_list j border_collision
      pure { g' with ball_object_list := bl, dozer_object_list := dl })
    (fun _ g' => Shape g g' ∧ AllIdx PD g'.dozer_object_list ∧
      AllIdx (Phase PB0 PB1 i) g'.ball_object_list) g ⟨Shape.refl g, hD, hB⟩
    (by
      rintro j g' hj ⟨hS, hD', hB'⟩
      have hj' : j < g'.dozer_object_list.length := by rw [hS.dozers]; exact hj
      have hi' : i < g'.ball_object_list.length := by rw [hS.balls]; exact hi
      simp only [List.getElem?_eq_getElem hj', Option.bind_eq_bind, Option.some_bind,
        poke_eq_some _ _ _ hi', poke_eq_some _ _ _ hj', Option.pure_def]
      refine ⟨_, rfl, ⟨?_, ?_, hS.cylinders, hS.wheel1, hS.wheel2, hS.rotation⟩, ?_, ?_⟩
      · simp [hS.dozers]
      · simp [hS.balls]
      · exact allIdx_modify PD PD _ j _ hD' (fun a ha => hd j a ha) (fun k a _ ha => ha)
      · exact allIdx_modify _ _ _ i _ hB'
          (fun a ha => ⟨fun h => absurd h (lt_irrefl i),
            fun _ => hb1 j _ i a (hD' j _ (List.getElem?_eq_getElem hj')) (ha.2 le_rfl)⟩)
          (fun k a _ ha => ha))
  have hi1 : i < g1.ball_object_list.length := by rw [hS1.balls]; exact hi
  obtain ⟨idx, h2⟩ := goal_loop_spec m i g1 hi1
  rw [h1]
  simp only [Option.bind_eq_bind, Option.some_bind, h2]
  rw [poke_eq_some _ _ _ (by simpa using hi1)]
  refine ⟨_, rfl, ⟨hS1.dozers, ?_, hS1.cylinders, hS1.wheel1, hS1.wheel2, hS1.rotation⟩, hD1, ?_⟩
  · simp [hS1.balls]
  · refine allIdx_modify _ _ _ i _ hB1 (fun a ha => ⟨fun _ => hb2 i a (ha.2 le_rfl), fun h => ?_⟩)
      (fun k a hk ha => ⟨fun h => ha.1 ?_, fun h => ha.2 ?_⟩)
    · omega
    · omega
    · omega

theorem sphere_body_preserves (m : Libm F) (P : Nat → Transform F → Prop)
    (hs : ∀ k b s, P k b → P k { b with speed := s })
    (hbc : ∀ k b, P k b → P k (border_collision b))
    (i : Nat) (g : Game F) (hi : i < g.ball_object_list.length)
    (hB : AllIdx P g.ball_object_list) :
    ∃ g', sphere_body m i g = some g' ∧ Shape g g' ∧
      g'.dozer_object_list = g.dozer_object_list ∧ AllIdx P g'.ball_object_list := by
  unfold sphere_body
  obtain ⟨g1, h1, hS1, hD1, hB1⟩ := loop_invariant g.ball_object_list.length
    (fun j g' => do
      let bl ← sphere_collision m g'.ball_object_list i j
      pure { g' with ball_object_list := bl })
    (fun _ g' => Shape g g' ∧ g'.dozer_object_list = g.dozer_object_list ∧
      AllIdx P g'.ball_object_list) g ⟨Shape.refl g, rfl, hB⟩
    (by
      rintro j g' hj ⟨hS, hD', hB'⟩
      have hj' : j < g'.ball_object_list.length := by rw [hS.balls]; exact hj
      have hi' : i < g'.ball_object_list.length := by rw [hS.balls]; exact hi
      obtain ⟨bl', hc, hlen, hP⟩ := sphere_collision_preserves m P hs _ i j hi' hj' hB'
      simp only [hc, Option.bind_eq_bind, Option.some_bind, Option.pure_def]
      exact ⟨_, rfl, ⟨hS.dozers, hlen.trans hS.balls, hS.cylinders, hS.wheel1, hS.wheel2,
        hS.rotation⟩, hD', hP⟩)
  have hi1 : i < g1.ball_object_list.length := by rw [hS1.balls]; exact hi
  obtain ⟨idx, h2⟩ := goal_loop_spec m i g1 hi1
  rw [h1]
  simp only [Option.bind_eq_bind, Option.some_bind, h2]
  rw [poke_eq_some _ _ _ (by simpa using hi1)]
  refine ⟨_, rfl, ⟨hS1.dozers, ?_, hS1.cylinders, hS1.wheel1, hS1.wheel2, hS1.rotation⟩, hD1, ?_⟩
  · simp [hS1.balls]
  · exact allIdx_modify P P _ i _ hB1 (fun a ha => hbc i a ha) (fun k a _ ha => ha)

theorem update_dozers_preserves (m : Libm F) (PD : Nat → Transform F → Prop)
    (hd1 : ∀ k d s, PD k d → PD k { d with speed := s })
    (hd2 : ∀ k ang d, k < 2 → PD k d → PD k (dozer_move m ang d))
    (g : Game F) (h2 : 2 ≤ g.dozer_object_list.length) (hD : AllIdx PD g.dozer_object_list) :
    ∃ g', update_dozers m g = some g' ∧
      g'.dozer_object_list.length = g.dozer_object_list.length ∧
      g'.ball_object_list = g.ball_object_list ∧
      g'.cylinder_object_list = g.cylinder_object_list ∧
      g'.dozer1_wheel_dir = g.dozer1_wheel_dir ∧ g'.dozer2_wheel_dir = g.dozer2_wheel_dir ∧
      AllIdx PD g'.dozer_object_list := by
  obtain ⟨dl, bl, cl, w1, w2, ⟨r0, r1⟩, idx⟩ := g
  match dl, h2, hD with
  | d0 :: d1 :: rest, _, hD =>
    refine ⟨_, update_dozers_eq m d0 d1 rest bl cl w1 w2 r0 r1 idx, rfl, rfl, rfl, rfl, rfl, ?_⟩
    intro k a hka
    match k, hka with
    | 0, hka =>
      simp only [List.getElem?_cons_zero, Option.some.injEq] at hka
      rw [← hka]
      exact hd2 0 _ _ (by decide) (hd1 0 d0 _ (hD 0 d0 rfl))
    | 1, hka =>
      simp only [List.getElem?_cons_succ, List.getElem?_cons_zero, Option.some.injEq] at hka
      rw [← hka]
      exact hd2 1 _ _ (by decide) (hd1 1 d1 _ (hD 1 d1 (by simp)))
    | k + 2, hka =>
      exact hD (k + 2) a (by simpa using hka)

/-- The frame update succeeds when there are at least two vehicles, and carries
elementwise invariants of the vehicles and of the spheres through the frame. -/
theorem update_preserves (m : Libm F) (PD PB0 PB1 : Nat → Transform F → Prop)
    (hd1 : ∀ k d s, PD k d → PD k { d with speed := s })
    (hd2 : ∀ k ang d, k < 2 → PD k d → PD k (dozer_move m ang d))
    (hd3 : ∀ k d, PD k d → PD k (border_collision d))
    (hb1 : ∀ j d k b, PD j d → PB0 k b → PB0 k (dozer_collision m d b))
    (hb2 : ∀ k b, PB0 k b → PB1 k (ball_integrate m b))
    (hb3 : ∀ k b s, PB1 k b → PB1 k { b with speed := s })
    (hb4 : ∀ k b, PB1 k b → PB1 k (border_collision b))
    (g : Game F) (h2 : 2 ≤ g.dozer_object_list.length)
    (hD : AllIdx PD g.dozer_object_list) (hB : AllIdx PB0 g.ball_object_list) :
    ∃ g', update m g = some g' ∧
      g'.dozer_object_list.length = g.dozer_object_list.length ∧
      g'.ball_object_list.length = g.ball_object_list.length ∧
      g'.cylinder_object_list = g.cylinder_object_list ∧
      g'.dozer1_wheel_dir = g.dozer1_wheel_dir ∧ g'.dozer2_wheel_dir = g.dozer2_wheel_dir ∧
      g'.index_delete = -1 ∧
      AllIdx PD g'.dozer_object_list ∧ AllIdx PB1 g'.ball_object_list := by
  obtain ⟨g1, e1, hl1, hb1', hc1, hw1, hw1', hD1⟩ := update_dozers_preserves m PD hd1 hd2 g h2 hD
  obtain ⟨g2, e2, hS2, hD2, hB2⟩ := loop_invariant
    ({ g1 with index_delete := -1 } : Game F).ball_object_list.length (ball_body m)
    (fun i g' => Shape { g1 with index_delete := -1 } g' ∧ AllIdx PD g'.dozer_object_list ∧
      AllIdx (Phase PB0 PB1 i) g'.ball_object_list)
    { g1 with index_delete := -1 }
    ⟨Shape.refl _, hD1, fun k a hka => ⟨fun h => absurd h (Nat.not_lt_zero k),
      fun _ => hB k a (by rw [← hb1']; exact hka)⟩⟩
    (by
      rintro i g' hi ⟨hS, hD', hB'⟩
      obtain ⟨g'', e, hS', hD'', hB''⟩ := ball_body_preserves m PD PB0 PB1 hd3 hb1 hb2 i g'
        (by rw [hS.balls]; exact hi) hD' hB'
      exact ⟨g'', e, hS.trans hS', hD'', hB''⟩)
  have hB2' : AllIdx PB1 g2.ball_object_list := by
    intro k a hka
    refine (hB2 k a hka).1 ?_
    have := (List.getElem?_eq_some_iff.1 hka).1
    rw [hS2.balls] at this
    exact this
  obtain ⟨g3, e3, hS3, hD3, hB3⟩ := loop_invariant g2.ball_object_list.length (sphere_body m)
    (fun _ g' => Shape g2 g' ∧ g'.dozer_object_list = g2.dozer_object_list ∧
      AllIdx PB1 g'.ball_object_list) g2 ⟨Shape.refl _, rfl, hB2'⟩
    (by
      rintro i g' hi ⟨hS, hD', hB'⟩
      obtain ⟨g'', e, hS', hD'', hB''⟩ := sphere_body_preserves m PB1 hb3 hb4 i g'
        (by rw [hS.balls]; exact hi) hB'
      exact ⟨g'', e, hS.trans hS', hD''.trans hD', hB''⟩)
  have hS := hS2.trans hS3
  unfold update
  simp only [Option.bind_eq_bind, e1, Option.some_bind, e2, e3, Option.pure_def]
  split_ifs with hidx
  · exact ⟨_, rfl, hS.dozers.trans hl1, hS.balls.trans (congrArg List.length hb1'),
      hS.cylinders.trans hc1, hS.wheel1.trans hw1, hS.wheel2.trans hw1', rfl,
      hD3 ▸ hD2, hB3⟩
  · exact ⟨_, rfl, hS.dozers.trans hl1, hS.balls.trans (congrArg List.length hb1'),
      hS.cylinders.trans hc1, hS.wheel1.trans hw1, hS.wheel2.trans hw1',
      not_not.1 hidx, hD3 ▸ hD2, hB3⟩

/-! ### Gravity on a sphere that no vehicle touches -/

/-- A sphere that no vehicle touches goes through the ball loop body as
through the integration step alone. -/
theorem ball_body_no_contact (m : Libm F) (hm : m.SqrtLaw) (i : Nat) (g : Game F)
    (b : Transform F) (hb : g.ball_object_list[i]? = some b)
    (hfar : ∀ d ∈ g.dozer_object_list,
      (2 * collision_radius) ^ 2 < planar_dist_sq d.position b.position) :
    ∃ g', ball_body m i g = some g' ∧
      g'.ball_object_list[i]? = some (ball_integrate m b) := by
  have hi : i < g.ball_object_list.length := (List.getElem?_eq_some_iff.1 hb).1
  obtain ⟨g', h, hS, _, hB⟩ := ball_body_preserves m
    (fun _ d => (2 * collision_radius) ^ 2 < planar_dist_sq d.position b.position)
    (fun k x => k = i → x = b)
    (fun k x => k = i → x = ball_integrate m b)
    (fun _ d h => by
      show (2 * collision_radius) ^ 2 < planar_dist_sq (border_collision d).position b.position
      rw [(border_collision_idempotent d).2.1]; exact h)
    (fun _ d k x hd hx hk => by
      rw [hx hk]; exact (dozer_collision_response m hm d b).2 hd)
    (fun k x hx hk => by rw [hx hk])
    i g hi
    (fun k d hk => hfar d (List.getElem?_mem hk))
    (fun k a hka => ⟨fun hlt hk => absurd hk (Nat.ne_of_lt hlt),
      fun _ hk => by subst hk; rw [hb] at hka; exact (Option.some.inj hka).symm⟩)
  have hi' : i < g'.ball_object_list.length := by rw [hS.balls]; exact hi
  refine ⟨g', h, ?_⟩
  rw [List.getElem?_eq_getElem hi']
  exact congrArg some ((hB i _ (List.getElem?_eq_getElem hi')).1 (Nat.lt_succ_self i) rfl)

/-- C5 (amended): for a sphere in planar contact with no vehicle, the ball loop
body (vehicle tests, goal tests, integration) tests and applies gravity on the
moved height z + speed * velocity.z: when that is at least 0.001 +
collision_radius the new position.z is z + speed * velocity.z - gravity; so a
sphere with position.z >= collision_radius + 0.001 whose displacement
speed * velocity.z is 0 ends with position.z = z - gravity exactly. -/
theorem ball_gravity_without_contact (m : Libm F) (hm : m.SqrtLaw) (i : Nat) (g : Game F)
    (b : Transform F) (hb : g.ball_object_list[i]? = some b)
    (hfar : ∀ d ∈ g.dozer_object_list,
      (2 * collision_radius) ^ 2 < planar_dist_sq d.position b.position) :
    ∃ g' b', ball_body m i g = some g' ∧ g'.ball_object_list[i]? = some b' ∧
      (0.001 + collision_radius ≤ b.position.z + b.speed * b.velocity.z →
        b'.position.z = b.position.z + b.speed * b.velocity.z - gravity) ∧
      (b.speed * b.velocity.z = 0 → collision_radius + 0.001 ≤ b.position.z →
        b'.position.z = b.position.z - gravity) := by
  obtain ⟨g', h, hb'⟩ := ball_body_no_contact m hm i g b hb hfar
  exact ⟨g', _, h, hb', ball_integrate_gravity m b⟩

/-- C5 (amended) at sphere A of the scenario (height 0.2, horizontal velocity)
with two vehicles at distance 2. -/
theorem ball_gravity_without_contact_witness :
    ∃ (g' : Game ℝ) (b' : Transform ℝ),
      ball_body ⟨Real.sqrt, Real.sin, Real.cos, Real.pi⟩ 0 idle_game = some g' ∧
      g'.ball_object_list[0]? = some b' ∧
      (0.001 + collision_radius ≤ (scenario_A : Transform ℝ).position.z
          + (scenario_A : Transform ℝ).speed * (scenario_A : Transform ℝ).velocity.z →
        b'.position.z = (scenario_A : Transform ℝ).position.z
          + (scenario_A : Transform ℝ).speed * (scenario_A : Transform ℝ).velocity.z - gravity) ∧
      ((scenario_A : Transform ℝ).speed * (scenario_A : Transform ℝ).velocity.z = 0 →
        collision_radius + 0.001 ≤ (scenario_A : Transform ℝ).position.z →
        b'.position.z = (scenario_A : Transform ℝ).position.z - gravity) :=
  ball_gravity_without_contact _ real_sqrtLaw 0 idle_game scenario_A rfl
    (by
      intro d hd
      simp only [idle_game, List.mem_cons, List.mem_singleton, List.not_mem_nil, or_false] at hd
      rcases hd with rfl | rfl <;>
        norm_num [planar_dist_sq, scenario_A, mk_transform, collision_radius])


/-- C5 as stated fails: the sphere at height 0.2 >= 0.151 with velocity (0, 0, 1)
and speed 0.01, in contact with no vehicle, ends its pass through the ball loop
at height 0.2 + 0.01 - 0.0098, not at 0.2 - 0.0098. -/
theorem ball_gravity_without_contact_counterexample :
    (∀ d ∈ (rising_game : Game ℝ).dozer_object_list,
      (2 * collision_radius) ^ 2 < planar_dist_sq d.position (rising_ball : Transform ℝ).position) ∧
    collision_radius + 0.001 ≤ (rising_ball : Transform ℝ).position.z ∧
    ∃ g' b', ball_body ⟨Real.sqrt, Real.sin, Real.cos, Real.pi⟩ 0 (rising_game : Game ℝ) = some g' ∧
      g'.ball_object_list[0]? = some b' ∧
      b'.position.z ≠ (rising_ball : Transform ℝ).position.z - gravity := by
  have hfar : ∀ d ∈ (rising_game : Game ℝ).dozer_object_list,
      (2 * collision_radius) ^ 2
        < planar_dist_sq d.position (rising_ball : Transform ℝ).position := by
    intro d hd
    simp only [rising_game, List.mem_cons, List.mem_singleton, List.not_mem_nil, or_false] at hd
    rcases hd with rfl | rfl <;>
      norm_num [planar_dist_sq, rising_ball, mk_transform, collision_radius]
  obtain ⟨g', h, hb'⟩ := ball_body_no_contact _ real_sqrtLaw 0 rising_game rising_ball rfl hfar
  refine ⟨hfar, by norm_num [rising_ball, mk_transform, collision_radius], g', _, h, hb', ?_⟩
  rw [ball_integrate_position]
  norm_num [rising_ball, mk_transform, collision_radius, gravity]

/-! ### Index safety of the frame update -/

theorem dozer_controls_none (w : WheelDir) (hw : w.Valid) (k : Nat) (g : Game F)
    (hk : g.dozer_object_list.length ≤ k) : dozer_controls w k g = none := by
  have hp : ∀ v : F, set_dozer_speed k v g = none := by
    intro v
    simp [set_dozer_speed, poke_eq_none _ _ _ hk]
  obtain ⟨h0, h1, h2, h3⟩ := hw
  unfold dozer_controls
  rcases h0 with h0 | h0
  · rcases h1 with h1 | h1
    · rcases h2 with h2 | h2
      · rcases h3 with h3 | h3
        · simp [h0, h1, h2, h3, hp]
        · simp [h0, h1, h2, h3, hp]
      · simp [h0, h1, h2, hp]
    · simp [h0, h1, hp]
  · simp [h0, hp]

theorem update_none_of_few_dozers (m : Libm F) (g : Game F)
    (h1 : g.dozer1_wheel_dir.Valid) (h2 : g.dozer2_wheel_dir.Valid)
    (hlen : g.dozer_object_list.length < 2) : update m g = none := by
  have hb : dozer_body m 0 g = none := by
    unfold dozer_body
    by_cases h0 : g.dozer_object_list.length = 0
    · rw [dozer_controls_none _ h1 0 g (by omega)]; rfl
    · rw [dozer_controls_eq _ 0 g (by omega)]
      simp only [Option.bind_eq_bind, Option.some_bind]
      rw [dozer_controls_none _ h2 1 _ (by simp; omega)]; rfl
  unfold update update_dozers
  rw [loop_succ, loop_succ, loop_zero]
  simp [hb]

theorem update_isSome_of_two_dozers (m : Libm F) (g : Game F)
    (hlen : 2 ≤ g.dozer_object_list.length) : ∃ g', update m g = some g' := by
  obtain ⟨g', h, _⟩ := update_preserves m (fun _ _ => True) (fun _ _ => True) (fun _ _ => True)
    (fun _ _ _ _ => trivial) (fun _ _ _ _ _ => trivial) (fun _ _ _ => trivial)
    (fun _ _ _ _ _ _ => trivial) (fun _ _ _ => trivial) (fun _ _ _ _ => trivial)
    (fun _ _ _ => trivial) g hlen (fun _ _ _ => trivial) (fun _ _ _ => trivial)
  exact ⟨g', h⟩

/-- C9: the scene with the single entry "Ball" is well formed and loads, into a
registry with one sphere and no vehicle; the frame update of the loaded state
fails, because the vehicle loop indexes dozer_object_list[0] (and [1]) whatever
the length of the list. -/
theorem update_fails_on_scene_without_vehicles (m : Libm F) (fresh : Transform F) :
    ∃ g, load (fun _ => true) fresh "Ball".toList
        [⟨0, 4, ⟨0, 0, 0.2⟩, ⟨1, 0, 0, 0⟩, ⟨1, 1, 1⟩⟩] = Except.ok g ∧
      g.dozer_object_list = [] ∧ g.ball_object_list.length = 1 ∧ update m g = none := by
  have hc : object_is_cylinder "Ball".toList = false := by decide
  have hb : object_is_ball "Ball".toList = true := by decide
  refine ⟨{ (empty_game : Game F) with ball_object_list :=
      [{ fresh with position := ⟨0, 0, 0.2⟩, rotation := ⟨1, 0, 0, 0⟩, scale := ⟨1, 1, 1⟩ }] },
    ?_, rfl, rfl, ?_⟩
  · simp [load, load_entry, add_object, empty_game, hc, hb]
    rfl
  · exact update_none_of_few_dozers m _ (by simp [empty_game, WheelDir.Valid])
      (by simp [empty_game, WheelDir.Valid]) (by simp [empty_game])

/-! ### Rotations -/

theorem angleAxis_normSq (m : Libm F) (ht : m.TrigLaw) (angle : F) (v : Vec3 F) :
    (angleAxis m angle v).normSq = 1 + (v.normSq - 1) * m.sin (angle * 0.5) ^ 2 := by
  have h := ht (angle * 0.5)
  simp only [angleAxis, Quat.normSq, Vec3.normSq]
  linear_combination h

theorem angleAxis_isUnit (m : Libm F) (ht : m.TrigLaw) (angle : F) (v : Vec3 F)
    (hv : v.normSq = 1) : (angleAxis m angle v).IsUnit := by
  unfold Quat.IsUnit
  rw [angleAxis_normSq m ht, hv]; ring

theorem dozer_move_rotation_normSq (m : Libm F) (ht : m.TrigLaw) (ang : F) (t : Transform F) :
    (dozer_move m ang t).rotation.normSq =
      1 + 2 * m.sin ang * m.cos ang * m.sin (m.sin (ang * t.speed) * 0.5) ^ 2 := by
  have h := ht ang
  simp only [dozer_move]
  rw [angleAxis_normSq m ht]
  simp only [Vec3.normSq]
  linear_combination (m.sin (m.sin (ang * t.speed) * 0.5) ^ 2) * h

theorem border_collision_rotation (o : Transform F) :
    (border_collision o).rotation = o.rotation := (border_collision_idempotent o).2.2.1

theorem border_collision_velocity_normSq (o : Transform F) :
    (border_collision o).velocity.normSq = o.velocity.normSq := by
  obtain ⟨⟨px, py, pz⟩, rot, sc, ⟨vx, vy, vz⟩, sp⟩ := o
  by_cases h1 : px > 2.86 <;> by_cases h2 : px < -2.86 <;>
    by_cases h3 : py > 1.9 <;> by_cases h4 : py < -1.9 <;>
    simp only [border_collision, h1, h2, h3, h4, if_true, if_false, Vec3.normSq, abs_neg,
      abs_abs, neg_sq, sq_abs]

theorem border_collision_velocity_prod (o : Transform F)
    (h : (border_collision o).velocity.x * (border_collision o).velocity.y = 0) :
    o.velocity.x * o.velocity.y = 0 := by
  obtain ⟨⟨px, py, pz⟩, rot, sc, ⟨vx, vy, vz⟩, sp⟩ := o
  revert h
  by_cases h1 : px > 2.86 <;> by_cases h2 : px < -2.86 <;>
    by_cases h3 : py > 1.9 <;> by_cases h4 : py < -1.9 <;>
    simp only [border_collision, h1, h2, h3, h4, if_true, if_false, abs_neg, abs_abs,
      mul_eq_zero, neg_eq_zero, abs_eq_zero, imp_self]

theorem dozer_collision_rotation (m : Libm F) (d b : Transform F) :
    (dozer_collision m d b).rotation = b.rotation := by
  simp only [dozer_collision]
  split_ifs <;> rfl

theorem ball_integrate_rotation (m : Libm F) (ht : m.TrigLaw) (b : Transform F)
    (hb : b.rotation.IsUnit) (hv : (ball_integrate m b).velocity.normSq = 1) :
    (ball_integrate m b).rotation.IsUnit := by
  revert hv
  unfold ball_integrate
  by_cases h1 : b.speed ≤ 0.000001
  · simp only [h1, if_true]
    split_ifs <;> exact fun _ => hb
  · simp only [h1, if_false]
    split_ifs <;> exact fun hv => angleAxis_isUnit m ht _ _ hv

/-- A sufficient condition seen on the state after the frame: with
sin^2 + cos^2 = 1, at least two vehicles and every rotation a unit quaternion
before the update, afterwards a vehicle beyond the first two, a vehicle whose
velocity is axis-aligned and a sphere whose velocity has length 1 have a unit
rotation. -/
theorem update_unit_rotation_sufficient (m : Libm F) (ht : m.TrigLaw) (g : Game F)
    (h2 : 2 ≤ g.dozer_object_list.length)
    (hD : ∀ d ∈ g.dozer_object_list, d.rotation.IsUnit)
    (hB : ∀ b ∈ g.ball_object_list, b.rotation.IsUnit) :
    ∃ g', update m g = some g' ∧
      (∀ k d, g'.dozer_object_list[k]? = some d →
        (2 ≤ k ∨ d.velocity.x * d.velocity.y = 0) → d.rotation.IsUnit) ∧
      (∀ b ∈ g'.ball_object_list, b.velocity.normSq = 1 → b.rotation.IsUnit) := by
  obtain ⟨g', h, _, _, _, _, _, _, hD', hB'⟩ := update_preserves m
    (fun k d => (2 ≤ k ∨ d.velocity.x * d.velocity.y = 0) → d.rotation.IsUnit)
    (fun _ b => b.rotation.IsUnit)
    (fun _ b => b.velocity.normSq = 1 → b.rotation.IsUnit)
    (fun _ _ _ h => h)
    (fun k ang d hk _ hc => by
      have hz : m.cos ang * m.sin ang = 0 := by
        rcases hc with hc | hc
        · omega
        · exact hc
      unfold Quat.IsUnit
      rw [dozer_move_rotation_normSq m ht]
      linear_combination (2 * m.sin (m.sin (ang * d.speed) * 0.5) ^ 2) * hz)
    (fun k d h hc => by
      show (border_collision d).rotation.IsUnit
      rw [border_collision_rotation]
      exact h (hc.imp id (border_collision_velocity_prod d)))
    (fun _ d _ b _ h => by
      show (dozer_collision m d b).rotation.IsUnit
      rw [dozer_collision_rotation]; exact h)
    (fun _ b h hv => ball_integrate_rotation m ht b h hv)
    (fun _ _ _ h => h)
    (fun _ b h hv => by
      show (border_collision b).rotation.IsUnit
      rw [border_collision_rotation]
      exact h (by rw [← border_collision_velocity_normSq]; exact hv))
    g h2
    (fun k d hk _ => hD d (List.getElem?_mem hk))
    (fun k b hk => hB b (List.getElem?_mem hk))
  refine ⟨g', h, hD', ?_⟩
  intro b hb
  obtain ⟨k, hk⟩ := List.getElem?_of_mem hb
  exact hB' k b hk

/-- Without spheres the frame update is the vehicle loop. -/
theorem update_no_balls (m : Libm F) (d0 d1 : Transform F) (rest cl : List (Transform F))
    (w1 w2 : WheelDir) (r0 r1 : F) (idx : Int) :
    update m ⟨d0 :: d1 :: rest, [], cl, w1, w2, (r0, r1), idx⟩ = some
      ⟨dozer_move m ((r0 + heading_delta w1) * m.pi)
          { d0 with speed := control_speed w1 d0.speed } ::
        dozer_move m ((r1 + heading_delta w2 + heading_delta w2) * m.pi)
          { d1 with speed := control_speed w2 d1.speed } :: rest,
        [], cl, w1, w2,
        (r0 + heading_delta w1 + heading_delta w1, r1 + heading_delta w2 + heading_delta w2),
        -1⟩ := by
  unfold update
  rw [update_dozers_eq]
  simp [loop_zero]

/-! ### The sphere-sphere pass -/

theorem planar_distance_comm (m : Libm F) (a b : Vec3 F) :
    planar_distance m a b = planar_distance m b a := by
  unfold planar_distance
  congr 1
  ring

theorem inContact_comm (m : Libm F) (l : List (Transform F)) (j k : Nat)
    (h : InContact m l j k) : InContact m l k j := by
  obtain ⟨a, b, ha, hb, hd⟩ := h
  exact ⟨b, a, hb, ha, by rw [planar_distance_comm]; exact hd⟩

theorem planar_distance_self (m : Libm F) (hm : m.SqrtLaw) (a : Vec3 F) :
    planar_distance m a a ≤ 2 * collision_radius := by
  rw [planar_distance_le_iff m hm a a _ two_radius_nonneg]
  norm_num [planar_dist_sq, collision_radius]

/-- The result of `sphere_collision` on two indices in range. -/
theorem sphere_collision_eq (m : Libm F) (l : List (Transform F)) (i j : Nat)
    (a b : Transform F) (ha : l[i]? = some a) (hb : l[j]? = some b) :
    sphere_collision m l i j = some
      (if planar_distance m a.position b.position ≤ 2 * collision_radius then
        (l.modify (fun t => { t with speed := a.speed }) j).modify
          (fun t => { t with speed := 0 }) i
      else l) := by
  simp only [sphere_collision, ha, hb, Option.bind_eq_bind, Option.some_bind, Option.pure_def]
  split_ifs <;> rfl

omit [LinearOrderedField F] in
theorem samePositions_modify_speed (l0 l : List (Transform F)) (k : Nat) (s : F)
    (h : SamePositions l0 l) :
    SamePositions l0 (l.modify (fun t => { t with speed := s }) k) := by
  refine ⟨by rw [List.length_modify]; exact h.1, ?_⟩
  intro n a b ha hb
  by_cases hn : k = n
  · subst hn
    rw [List.getElem?_modify_eq] at hb
    cases hl : l[k]? with
    | none => rw [hl] at hb; simp at hb
    | some c =>
      rw [hl] at hb
      simp only [Option.map_eq_map, Option.map_some', Option.some.injEq] at hb
      rw [← hb]
      exact h.2 k a c ha hl
  · rw [List.getElem?_modify_ne _ _ hn] at hb
    exact h.2 n a b ha hb

theorem columnInv_step (m : Libm F) (hm : m.SqrtLaw) (l0 l : List (Transform F)) (r j : Nat)
    (hr : r < l.length) (hj : j < l.length) (h : ColumnInv m l0 r j l) :
    ∃ l', sphere_collision m l r j = some l' ∧ ColumnInv m l0 r (j + 1) l' := by
  obtain ⟨hpos, hsp⟩ := h
  have hr0 : r < l0.length := hpos.1 ▸ hr
  have hj0 : j < l0.length := hpos.1 ▸ hj
  have har := List.getElem?_eq_getElem hr
  have hbj := List.getElem?_eq_getElem hj
  have har0 := List.getElem?_eq_getElem hr0
  have hbj0 := List.getElem?_eq_getElem hj0
  have hpr := hpos.2 r _ _ har0 har
  have hpj := hpos.2 j _ _ hbj0 hbj
  rw [sphere_collision_eq m l r j _ _ har hbj]
  have hc : planar_distance m l[r].position l[j].position ≤ 2 * collision_radius ↔
      InContact m l0 r j := by
    constructor
    · intro hd
      exact ⟨_, _, har0, hbj0, by rw [← hpr, ← hpj]; exact hd⟩
    · rintro ⟨a, b, ha, hb, hd⟩
      rw [har0] at ha; rw [hbj0] at hb
      cases ha; cases hb
      rw [hpr, hpj]; exact hd
  by_cases hd : planar_distance m l[r].position l[j].position ≤ 2 * collision_radius
  · rw [if_pos hd]
    refine ⟨_, rfl, samePositions_modify_speed _ _ _ _ (samePositions_modify_speed _ _ _ _ hpos),
      ?_⟩
    intro k b hk hne
    by_cases hkr : r = k
    · subst hkr
      rw [List.getElem?_modify_eq] at hk
      cases hl : (List.modify (fun t => { t with speed := l[r].speed }) j l)[r]? with
      | none => rw [hl] at hk; simp at hk
      | some c =>
        rw [hl] at hk
        simp only [Option.map_eq_map, Option.map_some', Option.some.injEq] at hk
        rw [← hk] at hne
        exact absurd rfl hne
    · rw [List.getElem?_modify_ne _ _ hkr] at hk
      by_cases hkj : j = k
      · subst hkj
        rw [List.getElem?_modify_eq, hbj] at hk
        simp only [Option.map_eq_map, Option.map_some', Option.some.injEq] at hk
        rw [← hk] at hne
        obtain ⟨_, h2, h3, _⟩ := hsp r _ har hne
        have hlt : j < r := lt_of_le_of_ne (h3 rfl) (fun e => hkr e.symm)
        exact absurd (inContact_comm m l0 r j (hc.1 hd)) (h2 j hlt)
      · rw [List.getElem?_modify_ne _ _ hkj] at hk
        obtain ⟨h1, h2, h3, h4⟩ := hsp k b hk hne
        refine ⟨h1, h2, fun e => absurd e.symm hkr, fun hrk hkj' => h4 hrk ?_⟩
        omega
  · rw [if_neg hd]
    refine ⟨l, rfl, hpos, ?_⟩
    intro k b hk hne
    obtain ⟨h1, h2, h3, h4⟩ := hsp k b hk hne
    refine ⟨h1, h2, ?_, ?_⟩
    · intro e
      have hjr := h3 e
      rcases Nat.lt_or_ge j r with hlt | hge
      · omega
      · have hjr' : j = r := le_antisymm hjr hge
        subst hjr'
        exact absurd (planar_distance_self m hm _) hd
    · intro hrk hkj'
      rcases Nat.lt_or_ge k j with hlt | hge
      · exact h4 hrk hlt
      · have hkj : k = j := by omega
        subst hkj
        exact fun hcon => hd (hc.2 hcon)

theorem rowInv_border (m : Libm F) (l0 l : List (Transform F)) (r n : Nat)
    (hn : l.length = n) (h : ColumnInv m l0 r n l) :
    RowInv m l0 (r + 1) (l.modify border_collision r) := by
  obtain ⟨hpos, hsp⟩ := h
  have key : ∀ (k : Nat) (b : Transform F), (l.modify border_collision r)[k]? = some b →
      ∃ c, l[k]? = some c ∧ b.position = c.position ∧ b.speed = c.speed := by
    intro k b hk
    by_cases hkr : r = k
    · subst hkr
      rw [List.getElem?_modify_eq] at hk
      cases hl : l[r]? with
      | none => rw [hl] at hk; simp at hk
      | some c =>
        rw [hl] at hk
        simp only [Option.map_eq_map, Option.map_some', Option.some.injEq] at hk
        rw [← hk]
        exact ⟨c, rfl, (border_collision_idempotent c).2.1,
          (border_collision_idempotent c).2.2.2.2.1⟩
    · rw [List.getElem?_modify_ne _ _ hkr] at hk
      exact ⟨b, hk, rfl, rfl⟩
  refine ⟨⟨by rw [List.length_modify]; exact hpos.1, ?_⟩, ?_⟩
  · intro k a b ha hb
    obtain ⟨c, hc, hp, _⟩ := key k b hb
    rw [hp]
    exact hpos.2 k a c ha hc
  · intro k b hk hne
    obtain ⟨c, hc, _, hs⟩ := key k b hk
    obtain ⟨h1, h2, h3, h4⟩ := hsp k c hc (by rw [← hs]; exact hne)
    have hkn : k < n := hn ▸ (List.getElem?_eq_some_iff.1 hc).1
    have hrn : r < n := lt_of_le_of_lt h1 hkn
    have hrk : r < k := by
      rcases Nat.lt_or_ge r k with hlt | hge
      · exact hlt
      · have := h3 (le_antisymm hge h1)
        omega
    refine ⟨hrk, ?_⟩
    intro j' hj'
    rcases Nat.lt_or_ge j' r with hlt | hge
    · exact h2 j' hlt
    · have : j' = r := by omega
      subst this
      exact h4 hrk hkn

theorem sphere_body_rowInv (m : Libm F) (hm : m.SqrtLaw) (l0 : List (Transform F)) (r : Nat)
    (g : Game F) (hr : r < g.ball_object_list.length) (h : RowInv m l0 r g.ball_object_list) :
    ∃ g', sphere_body m r g = some g' ∧ Shape g g' ∧
      g'.dozer_object_list = g.dozer_object_list ∧
      RowInv m l0 (r + 1) g'.ball_object_list := by
  unfold sphere_body
  obtain ⟨g1, h1, hS1, hD1, hC1⟩ := loop_invariant g.ball_object_list.length
    (fun j g' => do
      let bl ← sphere_collision m g'.ball_object_list r j
      pure { g' with ball_object_list := bl })
    (fun j g' => Shape g g' ∧ g'.dozer_object_list = g.dozer_object_list ∧
      ColumnInv m l0 r j g'.ball_object_list) g
    ⟨Shape.refl g, rfl, h.1, fun k b hk hne =>
      ⟨(h.2 k b hk hne).1, (h.2 k b hk hne).2, fun _ => Nat.zero_le r,
        fun _ hk0 => absurd hk0 (Nat.not_lt_zero k)⟩⟩
    (by
      rintro j g' hj ⟨hS, hD', hC⟩
      have hj' : j < g'.ball_object_list.length := by rw [hS.balls]; exact hj
      have hr' : r < g'.ball_object_list.length := by rw [hS.balls]; exact hr
      obtain ⟨bl', hc, hC'⟩ := columnInv_step m hm l0 _ r j hr' hj' hC
      simp only [hc, Option.bind_eq_bind, Option.some_bind, Option.pure_def]
      exact ⟨_, rfl, ⟨hS.dozers, (hC'.1.1.trans hC.1.1.symm).trans hS.balls, hS.cylinders,
        hS.wheel1, hS.wheel2, hS.rotation⟩, hD', hC'⟩)
  have hr1 : r < g1.ball_object_list.length := by rw [hS1.balls]; exact hr
  obtain ⟨idx, h2⟩ := goal_loop_spec m r g1 hr1
  rw [h1]
  simp only [Option.bind_eq_bind, Option.some_bind, h2]
  rw [poke_eq_some _ _ _ (by simpa using hr1)]
  refine ⟨_, rfl, ⟨hS1.dozers, ?_, hS1.cylinders, hS1.wheel1, hS1.wheel2, hS1.rotation⟩, hD1, ?_⟩
  · simp [hS1.balls]
  · exact rowInv_border m l0 _ r _ hS1.balls hC1

/-- The sphere-sphere pass (the loop of lines 530-541) leaves every sphere with
speed 0. -/
theorem sphere_pass_speeds (m : Libm F) (hm : m.SqrtLaw) (g : Game F) :
    ∃ g', loop g.ball_object_list.length (sphere_body m) g = some g' ∧ Shape g g' ∧
      g'.dozer_object_list = g.dozer_object_list ∧
      ∀ b ∈ g'.ball_object_list, b.speed = 0 := by
  obtain ⟨g', h, hS, hD, hR⟩ := loop_invariant g.ball_object_list.length (sphere_body m)
    (fun r g' => Shape g g' ∧ g'.dozer_object_list = g.dozer_object_list ∧
      RowInv m g.ball_object_list r g'.ball_object_list) g
    ⟨Shape.refl g, rfl, ⟨rfl, fun k a b ha hb => by rw [ha] at hb; cases hb; rfl⟩,
      fun k b _ _ => ⟨Nat.zero_le k, fun j' hj' => absurd hj' (Nat.not_lt_zero j')⟩⟩
    (by
      rintro r g' hr ⟨hS, hD, hR⟩
      obtain ⟨g'', e, hS', hD', hR'⟩ := sphere_body_rowInv m hm g.ball_object_list r g'
        (by rw [hS.balls]; exact hr) hR
      exact ⟨g'', e, hS.trans hS', hD'.trans hD, hR'⟩)
  refine ⟨g', h, hS, hD, ?_⟩
  intro b hb
  obtain ⟨k, hk⟩ := List.getElem?_of_mem hb
  by_contra hne
  have hlt := (List.getElem?_eq_some_iff.1 hk).1
  have hle := (hR.2 k b hk hne).1
  rw [hS.balls] at hlt
  omega

/-! ### Vehicles and the velocity field -/

/-- The loop of lines 487-526 succeeds and carries elementwise invariants. -/
theorem ball_pass_preserves (m : Libm F) (PD PB0 PB1 : Nat → Transform F → Prop)
    (hd3 : ∀ k d, PD k d → PD k (border_collision d))
    (hb1 : ∀ j d k b, PD j d → PB0 k b → PB0 k (dozer_collision m d b))
    (hb2 : ∀ k b, PB0 k b → PB1 k (ball_integrate m b))
    (g : Game F) (hD : AllIdx PD g.dozer_object_list) (hB : AllIdx PB0 g.ball_object_list) :
    ∃ g', loop g.ball_object_list.length (ball_body m) g = some g' ∧ Shape g g' ∧
      AllIdx PD g'.dozer_object_list ∧ AllIdx PB1 g'.ball_object_list := by
  obtain ⟨g2, e2, hS2, hD2, hB2⟩ := loop_invariant g.ball_object_list.length (ball_body m)
    (fun i g' => Shape g g' ∧ AllIdx PD g'.dozer_object_list ∧
      AllIdx (Phase PB0 PB1 i) g'.ball_object_list) g
    ⟨Shape.refl _, hD, fun k a hka => ⟨fun h => absurd h (Nat.not_lt_zero k),
      fun _ => hB k a hka⟩⟩
    (by
      rintro i g' hi ⟨hS, hD', hB'⟩
      obtain ⟨g'', e, hS', hD'', hB''⟩ := ball_body_preserves m PD PB0 PB1 hd3 hb1 hb2 i g'
        (by rw [hS.balls]; exact hi) hD' hB'
      exact ⟨g'', e, hS.trans hS', hD'', hB''⟩)
  refine ⟨g2, e2, hS2, hD2, ?_⟩
  intro k a hka
  refine (hB2 k a hka).1 ?_
  have := (List.getElem?_eq_some_iff.1 hka).1
  rw [hS2.balls] at this
  exact this

/-- The loop of lines 530-541 succeeds and leaves the vehicles as they are. -/
theorem sphere_pass_dozers (m : Libm F) (g : Game F) :
    ∃ g', loop g.ball_object_list.length (sphere_body m) g = some g' ∧ Shape g g' ∧
      g'.dozer_object_list = g.dozer_object_list := by
  obtain ⟨g3, e3, hS3, hD3, _⟩ := loop_invariant g.ball_object_list.length (sphere_body m)
    (fun _ g' => Shape g g' ∧ g'.dozer_object_list = g.dozer_object_list ∧
      AllIdx (fun _ _ => True) g'.ball_object_list) g
    ⟨Shape.refl _, rfl, fun _ _ _ => trivial⟩
    (by
      rintro i g' hi ⟨hS, hD', hB'⟩
      obtain ⟨g'', e, hS', hD'', hB''⟩ := sphere_body_preserves m (fun _ _ => True)
        (fun _ _ _ _ => trivial) (fun _ _ _ => trivial) i g'
        (by rw [hS.balls]; exact hi) hB'
      exact ⟨g'', e, hS.trans hS', hD''.trans hD', hB''⟩)
  exact ⟨g3, e3, hS3, hD3⟩

/-- The frame update from the results of its three loops. -/
theorem update_of_passes (m : Libm F) (g g1 g2 g3 : Game F)
    (h1 : update_dozers m g = some g1)
    (h2 : loop ({ g1 with index_delete := -1 } : Game F).ball_object_list.length (ball_body m)
      { g1 with index_delete := -1 } = some g2)
    (h3 : loop g2.ball_object_list.length (sphere_body m) g2 = some g3) :
    update m g = some { g3 with index_delete := -1 } := by
  unfold update
  simp only [Option.bind_eq_bind, h1, Option.some_bind, h2, h3, Option.pure_def]
  split_ifs with hidx
  · rfl
  · have : g3.index_delete = -1 := not_not.1 hidx
    rw [← this]

/-- After the vehicle loop the rest of the frame keeps the position, rotation,
scale and speed of every vehicle, the headings and the wheel flags. -/
theorem update_after_dozers (m : Libm F) (g g1 : Game F) (h1 : update_dozers m g = some g1) :
    ∃ g3, update m g = some g3 ∧
      g3.dozer_object_list.length = g1.dozer_object_list.length ∧
      g3.dozer1_wheel_dir = g1.dozer1_wheel_dir ∧ g3.dozer2_wheel_dir = g1.dozer2_wheel_dir ∧
      g3.dozer_rotation = g1.dozer_rotation ∧
      ∀ (k : Nat) (d : Transform F), g3.dozer_object_list[k]? = some d →
        ∃ c, g1.dozer_object_list[k]? = some c ∧ d.position = c.position ∧
          d.rotation = c.rotation ∧ d.scale = c.scale ∧ d.speed = c.speed := by
  obtain ⟨g2, e2, hS2, hD2, _⟩ := ball_pass_preserves m
    (fun k d => ∃ c, g1.dozer_object_list[k]? = some c ∧ d.position = c.position ∧
      d.rotation = c.rotation ∧ d.scale = c.scale ∧ d.speed = c.speed)
    (fun _ _ => True) (fun _ _ => True)
    (fun k d ⟨c, hc, hp, hr, hs, hv⟩ => ⟨c, hc,
      ((border_collision_idempotent d).2.1).trans hp,
      ((border_collision_idempotent d).2.2.1).trans hr,
      ((border_collision_idempotent d).2.2.2.1).trans hs,
      ((border_collision_idempotent d).2.2.2.2.1).trans hv⟩)
    (fun _ _ _ _ _ _ => trivial) (fun _ _ _ => trivial)
    ({ g1 with index_delete := -1 } : Game F)
    (fun k d hk => ⟨d, hk, rfl, rfl, rfl, rfl⟩) (fun _ _ _ => trivial)
  obtain ⟨g3, e3, hS3, hD3⟩ := sphere_pass_dozers m g2
  refine ⟨_, update_of_passes m g g1 g2 g3 h1 e2 e3, ?_, ?_, ?_, ?_, ?_⟩
  · exact hS3.dozers.trans hS2.dozers
  · exact hS3.wheel1.trans hS2.wheel1
  · exact hS3.wheel2.trans hS2.wheel2
  · exact hS3.rotation.trans hS2.rotation
  · intro k d hk
    exact hD2 k d (by rw [← hD3]; exact hk)

theorem dozer_move_position (m : Libm F) (ang : F) (t : Transform F) :
    (dozer_move m ang t).position =
      ⟨t.position.x + t.speed * m.cos ang, t.position.y + t.speed * m.sin ang,
        t.position.z + t.speed * 0⟩ := rfl

/-- One frame keeps two states with the same vehicle motion in that relation. -/
theorem update_sameVehicleMotion (m : Libm F) (g g' : Game F)
    (h2 : 2 ≤ g.dozer_object_list.length) (hveh : SameVehicleMotion g g') :
    ∃ h h', update m g = some h ∧ update m g' = some h' ∧
      h.dozer_object_list.length = g.dozer_object_list.length ∧ SameVehicleMotion h h' := by
  obtain ⟨dl, bl, cl, w1, w2, ⟨r0, r1⟩, idx⟩ := g
  obtain ⟨dl', bl', cl', w1', w2', ⟨r0', r1'⟩, idx'⟩ := g'
  obtain ⟨hlen, hmo, hw1, hw2, hhd⟩ := hveh
  simp only at hlen hmo hw1 hw2 hhd h2
  subst hw1 hw2
  cases hhd
  match dl, dl', h2, hlen, hmo with
  | d0 :: d1 :: rest, e0 :: e1 :: rest', _, hlen, hmo =>
    obtain ⟨hp0, hs0⟩ := hmo 0 d0 e0 rfl rfl
    obtain ⟨hp1, hs1⟩ := hmo 1 d1 e1 (by simp) (by simp)
    obtain ⟨h, e, hl, hw1, hw2, hr, hd⟩ :=
      update_after_dozers m _ _ (update_dozers_eq m d0 d1 rest bl cl w1' w2' r0 r1 idx)
    obtain ⟨h', e', hl', hw1', hw2', hr', hd'⟩ :=
      update_after_dozers m _ _ (update_dozers_eq m e0 e1 rest' bl' cl' w1' w2' r0 r1 idx')
    refine ⟨h, h', e, e', hl, ⟨?_, ?_, hw1'.trans hw1.symm, hw2'.trans hw2.symm,
      hr'.trans hr.symm⟩⟩
    · rw [hl, hl']
      simpa using hlen
    · intro k d d' hk hk'
      obtain ⟨c, hc, hp, _, _, hs⟩ := hd k d hk
      obtain ⟨c', hc', hp', _, _, hs'⟩ := hd' k d' hk'
      rw [hp, hp', hs, hs']
      match k, hc, hc' with
      | 0, hc, hc' =>
        simp only [List.getElem?_cons_zero, Option.some.injEq] at hc hc'
        rw [← hc, ← hc']
        simp only [dozer_move_position, dozer_move_speed, hp0, hs0, and_self]
      | 1, hc, hc' =>
        simp only [List.getElem?_cons_succ, List.getElem?_cons_zero, Option.some.injEq] at hc hc'
        rw [← hc, ← hc']
        simp only [dozer_move_position, dozer_move_speed, hp1, hs1, and_self]
      | k + 2, hc, hc' =>
        exact hmo (k + 2) c c' (by simpa using hc) (by simpa using hc')

/-- The new x coordinates of the first two vehicles after a frame, from the
state before it. -/
theorem update_vehicle_position (m : Libm F) (g h : Game F)
    (h2 : 2 ≤ g.dozer_object_list.length) (hu : update m g = some h) :
    (∀ d e, g.dozer_object_list[0]? = some d → h.dozer_object_list[0]? = some e →
      e.position.x = d.position.x + control_speed g.dozer1_wheel_dir d.speed *
        m.cos ((g.dozer_rotation.1 + heading_delta g.dozer1_wheel_dir) * m.pi)) ∧
    (∀ d e, g.dozer_object_list[1]? = some d → h.dozer_object_list[1]? = some e →
      e.position.x = d.position.x + control_speed g.dozer2_wheel_dir d.speed *
        m.cos ((g.dozer_rotation.2 + heading_delta g.dozer2_wheel_dir
          + heading_delta g.dozer2_wheel_dir) * m.pi)) := by
  obtain ⟨dl, bl, cl, w1, w2, ⟨r0, r1⟩, idx⟩ := g
  match dl, h2, hu with
  | d0 :: d1 :: rest, _, hu =>
    obtain ⟨g3, e3, _, _, _, _, hd⟩ :=
      update_after_dozers m _ _ (update_dozers_eq m d0 d1 rest bl cl w1 w2 r0 r1 idx)
    rw [hu] at e3
    cases e3
    constructor
    · intro d e hd0 he
      obtain ⟨c, hc, hp, _⟩ := hd 0 e he
      simp only [List.getElem?_cons_zero, Option.some.injEq] at hc hd0
      rw [hp, ← hc, ← hd0, dozer_move_position]
    · intro d e hd1 he
      obtain ⟨c, hc, hp, _⟩ := hd 1 e he
      simp only [List.getElem?_cons_succ, List.getElem?_cons_zero, Option.some.injEq] at hc hd1
      rw [hp, ← hc, ← hd1, dozer_move_position]

/-- Any number of frames keeps two states with the same vehicle motion in that
relation. -/
theorem frames_update_sameVehicleMotion (m : Libm F) (n : Nat) (g g' : Game F)
    (h2 : 2 ≤ g.dozer_object_list.length) (hveh : SameVehicleMotion g g') :
    ∃ h h', frames (update m) n g = some h ∧ frames (update m) n g' = some h' ∧
      h.dozer_object_list.length = g.dozer_object_list.length ∧ SameVehicleMotion h h' := by
  induction n with
  | zero => exact ⟨g, g', rfl, rfl, rfl, hveh⟩
  | succ n ih =>
    obtain ⟨h, h', e, e', hl, hv⟩ := ih
    obtain ⟨k, k', f, f', hl', hv'⟩ := update_sameVehicleMotion m h h' (by rw [hl]; exact h2) hv
    exact ⟨k, k', by rw [frames_succ, e]; exact f, by rw [frames_succ, e']; exact f',
      hl'.trans hl, hv'⟩

/-- The frame update on the vehicles: with at least two vehicles it completes,
keeps their number and the wheel flags, and leaves every vehicle with the
position, rotation and speed computed from its own position, rotation and
speed before the frame, the wheel flags and the headings. -/
theorem update_vehicles (m : Libm F) (g : Game F) (h2 : 2 ≤ g.dozer_object_list.length) :
    ∃ h, update m g = some h ∧
      h.dozer_object_list.length = g.dozer_object_list.length ∧
      h.dozer1_wheel_dir = g.dozer1_wheel_dir ∧ h.dozer2_wheel_dir = g.dozer2_wheel_dir ∧
      h.dozer_rotation = headings_after g ∧
      ∀ (k : Nat) (d : Transform F), g.dozer_object_list[k]? = some d →
        ∃ e, h.dozer_object_list[k]? = some e ∧
          e.position = vehicle_position_after m g k d.position d.speed ∧
          e.speed = vehicle_speed_after g k d.speed ∧
          e.rotation = vehicle_rotation_after m g k d.rotation d.speed ∧
          e.scale = d.scale := by
  obtain ⟨dl, bl, cl, w1, w2, ⟨r0, r1⟩, idx⟩ := g
  match dl, h2 with
  | d0 :: d1 :: rest, _ =>
    obtain ⟨h, e, hl, hw1, hw2, hr, hd⟩ :=
      update_after_dozers m _ _ (update_dozers_eq m d0 d1 rest bl cl w1 w2 r0 r1 idx)
    refine ⟨h, e, hl, hw1, hw2, hr, ?_⟩
    intro k d hk
    have hklt : k < h.dozer_object_list.length := by
      rw [hl]; exact (List.getElem?_eq_some_iff.1 hk).1
    obtain ⟨c, hc, hp, hq, hs, hv⟩ := hd k _ (List.getElem?_eq_getElem hklt)
    refine ⟨_, List.getElem?_eq_getElem hklt, ?_⟩
    rw [hp, hq, hs, hv]
    match k, hk, hc with
    | 0, hk, hc =>
      simp only [List.getElem?_cons_zero, Option.some.injEq] at hk hc
      rw [← hc, ← hk]
      exact ⟨rfl, rfl, rfl, rfl⟩
    | 1, hk, hc =>
      simp only [List.getElem?_cons_succ, List.getElem?_cons_zero, Option.some.injEq] at hk hc
      rw [← hc, ← hk]
      exact ⟨rfl, rfl, rfl, rfl⟩
    | k + 2, hk, hc =>
      simp only [List.getElem?_cons_succ] at hk hc
      rw [hk] at hc
      cases hc
      exact ⟨rfl, rfl, rfl, rfl⟩

/-- C12: for two states with at least two vehicles whose vehicles have the same
positions and speeds under the same wheel flags and headings (their velocity
fields, and everything else, may differ), the frame update completes on both
and keeps the number of vehicles; every vehicle of the state before is there
after the frame, in both runs at the same position and with the same speed,
which are those computed from its position and speed before, the wheel flags
and the headings alone; the headings after are the same too, and so it goes on
for any number of frames.  With only flag 0 held and heading 0, the first
vehicle ends the frame at x + 0.01 * cos(0.01 pi) and the second at
x + 0.01 * cos(0.02 pi), a larger x when that cosine is positive, wherever the
vehicle is and whatever its velocity field held. -/
theorem vehicle_motion_ignores_velocity (m : Libm F) (g g' : Game F)
    (h2 : 2 ≤ g.dozer_object_list.length) (hveh : SameVehicleMotion g g') :
    (∃ h h', update m g = some h ∧ update m g' = some h' ∧
      h.dozer_object_list.length = g.dozer_object_list.length ∧
      h'.dozer_object_list.length = g.dozer_object_list.length ∧
      h.dozer_rotation = headings_after g ∧ h'.dozer_rotation = headings_after g ∧
      SameVehicleMotion h h' ∧
      (∀ (k : Nat) (d : Transform F), g.dozer_object_list[k]? = some d →
        ∃ e e', h.dozer_object_list[k]? = some e ∧ h'.dozer_object_list[k]? = some e' ∧
          e.position = vehicle_position_after m g k d.position d.speed ∧
          e'.position = e.position ∧
          e.speed = vehicle_speed_after g k d.speed ∧ e'.speed = e.speed) ∧
      (g.dozer1_wheel_dir = ⟨1, 0, 0, 0⟩ → g.dozer_rotation.1 = 0 →
        ∀ d : Transform F, g.dozer_object_list[0]? = some d →
          ∃ e e', h.dozer_object_list[0]? = some e ∧ h'.dozer_object_list[0]? = some e' ∧
            e'.position = e.position ∧
            e.position.x = d.position.x + 0.01 * m.cos (0.01 * m.pi) ∧
            (0 < m.cos (0.01 * m.pi) → d.position.x < e.position.x)) ∧
      (g.dozer2_wheel_dir = ⟨1, 0, 0, 0⟩ → g.dozer_rotation.2 = 0 →
        ∀ d : Transform F, g.dozer_object_list[1]? = some d →
          ∃ e e', h.dozer_object_list[1]? = some e ∧ h'.dozer_object_list[1]? = some e' ∧
            e'.position = e.position ∧
            e.position.x = d.position.x + 0.01 * m.cos (0.02 * m.pi) ∧
            (0 < m.cos (0.02 * m.pi) → d.position.x < e.position.x))) ∧
    (∀ n : Nat, ∃ h h', frames (update m) n g = some h ∧ frames (update m) n g' = some h' ∧
      h.dozer_object_list.length = g.dozer_object_list.length ∧
      h'.dozer_object_list.length = g.dozer_object_list.length ∧
      SameVehicleMotion h h') := by
  constructor
  · obtain ⟨h, e, hl, _, _, hr, hd⟩ := update_vehicles m g h2
    obtain ⟨h', e', hl', _, _, hr', hd'⟩ := update_vehicles m g' (by rw [hveh.dozers]; exact h2)
    obtain ⟨k1, k2, f1, f2, _, hv⟩ := update_sameVehicleMotion m g g' h2 hveh
    rw [e] at f1; rw [e'] at f2
    cases f1; cases f2
    have hhead : headings_after g' = headings_after g := by
      unfold headings_after
      rw [hveh.wheel1, hveh.wheel2, hveh.heading]
    have hall : ∀ (k : Nat) (d : Transform F), g.dozer_object_list[k]? = some d →
        ∃ e e', h.dozer_object_list[k]? = some e ∧ h'.dozer_object_list[k]? = some e' ∧
          e.position = vehicle_position_after m g k d.position d.speed ∧
          e'.position = e.position ∧
          e.speed = vehicle_speed_after g k d.speed ∧ e'.speed = e.speed := by
      intro k d hk
      obtain ⟨a, ha, hp, hs, _⟩ := hd k d hk
      have hklt : k < h'.dozer_object_list.length := by
        rw [hl', hveh.dozers]; exact (List.getElem?_eq_some_iff.1 hk).1
      obtain ⟨hp', hs'⟩ := hv.motion k a _ ha (List.getElem?_eq_getElem hklt)
      exact ⟨a, _, ha, List.getElem?_eq_getElem hklt, hp, hp', hs, hs'⟩
    have hd01 : heading_delta (F := F) ⟨1, 0, 0, 0⟩ = 0.01 := by norm_num [heading_delta]
    have hc : ∀ s : F, control_speed (F := F) ⟨1, 0, 0, 0⟩ s = 0.01 := by
      intro s; norm_num [control_speed]
    refine ⟨h, h', e, e', hl, hl'.trans hveh.dozers, hr, hr'.trans hhead, hv, hall, ?_, ?_⟩
    · intro hw hr0 d hk
      obtain ⟨a, a', ha, ha', hp, hp', _, _⟩ := hall 0 d hk
      have hx : a.position.x = d.position.x + 0.01 * m.cos (0.01 * m.pi) := by
        rw [hp]
        simp only [vehicle_position_after, vehicle_speed_after, move_angle, Vec3.add, Vec3.smul,
          hw, hr0, hd01, hc, zero_add, if_true, Nat.ofNat_pos]
      refine ⟨a, a', ha, ha', hp', hx, fun hpos => ?_⟩
      rw [hx]
      have : (0 : F) < 0.01 * m.cos (0.01 * m.pi) := mul_pos (by norm_num) hpos
      linarith
    · intro hw hr1 d hk
      obtain ⟨a, a', ha, ha', hp, hp', _, _⟩ := hall 1 d hk
      have h02 : (0.01 : F) + 0.01 = 0.02 := by norm_num
      have hx : a.position.x = d.position.x + 0.01 * m.cos (0.02 * m.pi) := by
        rw [hp]
        simp only [vehicle_position_after, vehicle_speed_after, move_angle, Vec3.add, Vec3.smul,
          hw, hr1, hd01, hc, zero_add, if_true, if_false, one_ne_zero, Nat.one_lt_ofNat, h02]
      refine ⟨a, a', ha, ha', hp', hx, fun hpos => ?_⟩
      rw [hx]
      have : (0 : F) < 0.01 * m.cos (0.02 * m.pi) := mul_pos (by norm_num) hpos
      linarith
  · intro n
    obtain ⟨h, h', e, e', hl, hv⟩ := frames_update_sameVehicleMotion m n g g' h2 hveh
    exact ⟨h, h', e, e', hl, hv.dozers.trans hl, hv⟩

/-- C12 on the real numbers: a vehicle beyond the right border at x = 3 with
heading 0 and the key `a` held, once with velocity (1, 0, 0) and once with the
velocity (-1, 0, 0) that border_collision leaves; after the frame the vehicle
is there in both runs, at the same position, with x > 3. -/
theorem vehicle_motion_ignores_velocity_witness :
    ∃ (h h' : Game ℝ) (e e' : Transform ℝ),
      update ⟨Real.sqrt, Real.sin, Real.cos, Real.pi⟩ (border_game ⟨1, 0, 0⟩) = some h ∧
      update ⟨Real.sqrt, Real.sin, Real.cos, Real.pi⟩ (border_game ⟨-1, 0, 0⟩) = some h' ∧
      h.dozer_object_list.length = 2 ∧ h'.dozer_object_list.length = 2 ∧
      SameVehicleMotion h h' ∧
      h.dozer_object_list[0]? = some e ∧ h'.dozer_object_list[0]? = some e' ∧
      e'.position = e.position ∧ 3 < e.position.x := by
  obtain ⟨h, h', hu, hu', hl, hl', _, _, hv, _, hx, _⟩ := (vehicle_motion_ignores_velocity
    ⟨Real.sqrt, Real.sin, Real.cos, Real.pi⟩ (border_game ⟨1, 0, 0⟩) (border_game ⟨-1, 0, 0⟩)
    (by simp [border_game])
    ⟨rfl, by
      intro k d d' hd hd'
      match k, hd, hd' with
      | 0, hd, hd' =>
        simp only [border_game, List.getElem?_cons_zero, Option.some.injEq] at hd hd'
        rw [← hd, ← hd']
        exact ⟨rfl, rfl⟩
      | 1, hd, hd' =>
        simp only [border_game, List.getElem?_cons_succ, List.getElem?_cons_zero,
          Option.some.injEq] at hd hd'
        rw [← hd, ← hd']
        exact ⟨rfl, rfl⟩
      | k + 2, hd, _ =>
        simp [border_game] at hd, rfl, rfl, rfl⟩).1
  have hpi := Real.pi_gt_three
  have hpi' := Real.pi_le_four
  have hcos : 0 < Real.cos (0.01 * Real.pi) :=
    Real.cos_pos_of_mem_Ioo ⟨by linarith, by linarith⟩
  obtain ⟨a, a', ha, ha', hp, _, hgt⟩ := hx rfl rfl (mk_transform ⟨3, 0, 0⟩ ⟨1, 0, 0⟩ 0) rfl
  exact ⟨h, h', a, a', hu, hu', hl, hl', hv, ha, ha', hp, by simpa [mk_transform] using hgt hcos⟩

/-! ### Sphere speeds after the pass and after the frame -/

/-- C11: for every list of spheres, the sphere-sphere pass (the loop of lines
530-541: sphere_collision on all ordered index pairs in row-major order, the
pair (i, i) included, then the goal tests and border_collision) completes and
leaves every sphere with speed 0, whatever the positions and incoming speeds;
so does the whole frame update when there are at least two vehicles. -/
theorem sphere_pass_zeroes_every_speed (m : Libm F) (hm : m.SqrtLaw) (g : Game F) :
    (∃ g', loop g.ball_object_list.length (sphere_body m) g = some g' ∧
      g'.ball_object_list.length = g.ball_object_list.length ∧
      ∀ b ∈ g'.ball_object_list, b.speed = 0) ∧
    (2 ≤ g.dozer_object_list.length →
      ∃ g', update m g = some g' ∧
        g'.ball_object_list.length = g.ball_object_list.length ∧
        ∀ b ∈ g'.ball_object_list, b.speed = 0) := by
  constructor
  · obtain ⟨g', e, hS, _, hz⟩ := sphere_pass_speeds m hm g
    exact ⟨g', e, hS.balls, hz⟩
  · intro h2
    obtain ⟨g1, e1, _, hb1, _⟩ := update_dozers_preserves m (fun _ _ => True)
      (fun _ _ _ _ => trivial) (fun _ _ _ _ _ => trivial) g h2 (fun _ _ _ => trivial)
    obtain ⟨g2, e2, hS2, _⟩ := ball_pass_preserves m (fun _ _ => True) (fun _ _ => True)
      (fun _ _ => True) (fun _ _ _ => trivial) (fun _ _ _ _ _ _ => trivial)
      (fun _ _ _ => trivial) ({ g1 with index_delete := -1 } : Game F)
      (fun _ _ _ => trivial) (fun _ _ _ => trivial)
    obtain ⟨g3, e3, hS3, _, hz⟩ := sphere_pass_speeds m hm g2
    refine ⟨_, update_of_passes m g g1 g2 g3 e1 e2 e3, ?_, hz⟩
    exact (hS3.balls.trans hS2.balls).trans (congrArg List.length hb1)

/-- C11 on the real numbers, at three moving spheres of which two touch. -/
theorem sphere_pass_zeroes_every_speed_witness :
    (∃ g' : Game ℝ, loop (contact_game : Game ℝ).ball_object_list.length
        (sphere_body ⟨Real.sqrt, Real.sin, Real.cos, Real.pi⟩) contact_game = some g' ∧
      g'.ball_object_list.length = (contact_game : Game ℝ).ball_object_list.length ∧
      ∀ b ∈ g'.ball_object_list, b.speed = 0) ∧
    (∃ g' : Game ℝ, update ⟨Real.sqrt, Real.sin, Real.cos, Real.pi⟩ contact_game = some g' ∧
      g'.ball_object_list.length = (contact_game : Game ℝ).ball_object_list.length ∧
      ∀ b ∈ g'.ball_object_list, b.speed = 0) :=
  ⟨(sphere_pass_zeroes_every_speed _ real_sqrtLaw contact_game).1,
   (sphere_pass_zeroes_every_speed _ real_sqrtLaw contact_game).2 (by simp [contact_game])⟩

/-! ### Spheres through the frame, exactly -/

theorem dozer_collision_congr (m : Libm F) (c d b : Transform F)
    (hp : d.position = c.position) (hs : d.speed = c.speed) :
    dozer_collision m d b = dozer_collision m c b := by
  simp only [dozer_collision, hp, hs]

theorem pushed_take_succ (m : Libm F) (D : List (Transform F)) (j : Nat) (c b : Transform F)
    (hc : D[j]? = some c) :
    pushed m (D.take (j + 1)) b = dozer_collision m c (pushed m (D.take j) b) := by
  have hj : j < D.length := (List.getElem?_eq_some_iff.1 hc).1
  have hc' : D[j] = c := by
    rw [List.getElem?_eq_getElem hj] at hc
    exact Option.some.inj hc
  unfold pushed
  rw [List.take_succ, hc, List.foldl_append]
  rfl

theorem sameMotion_border (D l : List (Transform F)) (j : Nat) (h : SameMotion D l) :
    SameMotion D (l.modify border_collision j) := by
  refine ⟨by rw [List.length_modify]; exact h.1, ?_⟩
  intro k c d hc hd
  by_cases hjk : j = k
  · subst hjk
    rw [List.getElem?_modify_eq] at hd
    cases hl : l[j]? with
    | none => rw [hl] at hd; simp at hd
    | some x =>
      rw [hl] at hd
      simp only [Option.map_eq_map, Option.map_some', Option.some.injEq] at hd
      rw [← hd, (border_collision_idempotent x).2.1, (border_collision_idempotent x).2.2.2.2.1]
      exact h.2 j c x hc hl
  · rw [List.getElem?_modify_ne _ _ hjk] at hd
    exact h.2 k c d hc hd

/-- One pass of a ball through the loop body of lines 487-526, exactly. -/
theorem ball_body_exact (m : Libm F) (D : List (Transform F)) (i : Nat) (g : Game F)
    (b : Transform F) (hb : g.ball_object_list[i]? = some b)
    (hD : SameMotion D g.dozer_object_list) :
    ∃ g', ball_body m i g = some g' ∧ Shape g g' ∧ SameMotion D g'.dozer_object_list ∧
      g'.ball_object_list[i]? = some (ball_integrate m (pushed m D b)) ∧
      ∀ k, k ≠ i → g'.ball_object_list[k]? = g.ball_object_list[k]? := by
  have hi : i < g.ball_object_list.length := (List.getElem?_eq_some_iff.1 hb).1
  unfold ball_body
  obtain ⟨g1, h1, hS1, hD1, hB1, hO1⟩ := loop_invariant g.dozer_object_list.length
    (fun j g' => do
      let dozer ← g'.dozer_object_list[j]?
      let bl ← poke g'.ball_object_list i (dozer_collision m dozer)
      let dl ← poke g'.dozer_object_list j border_collision
      pure { g' with ball_object_list := bl, dozer_object_list := dl })
    (fun j g' => Shape g g' ∧ SameMotion D g'.dozer_object_list ∧
      g'.ball_object_list[i]? = some (pushed m (D.take j) b) ∧
      ∀ k, k ≠ i → g'.ball_object_list[k]? = g.ball_object_list[k]?) g
    ⟨Shape.refl g, hD, by simpa [pushed] using hb, fun _ _ => rfl⟩
    (by
      rintro j g' hj ⟨hS, hD', hB', hO'⟩
      have hj' : j < g'.dozer_object_list.length := by rw [hS.dozers]; exact hj
      have hi' : i < g'.ball_object_list.length := by rw [hS.balls]; exact hi
      have hjD : j < D.length := by rw [← hD'.1]; exact hj'
      obtain ⟨hp, hs⟩ := hD'.2 j _ _ (List.getElem?_eq_getElem hjD)
        (List.getElem?_eq_getElem hj')
      simp only [List.getElem?_eq_getElem hj', Option.bind_eq_bind, Option.some_bind,
        poke_eq_some _ _ _ hi', poke_eq_some _ _ _ hj', Option.pure_def]
      refine ⟨_, rfl, ⟨?_, ?_, hS.cylinders, hS.wheel1, hS.wheel2, hS.rotation⟩, ?_, ?_, ?_⟩
      · simp [hS.dozers]
      · simp [hS.balls]
      · exact sameMotion_border D _ j hD'
      · show (List.modify _ i g'.ball_object_list)[i]? = _
        rw [List.getElem?_modify_eq, hB']
        simp only [Option.map_eq_map, Option.map_some', Option.some.injEq]
        rw [pushed_take_succ m D j _ b (List.getElem?_eq_getElem hjD)]
        exact dozer_collision_congr m _ _ _ hp hs
      · intro k hk
        show (List.modify _ i g'.ball_object_list)[k]? = _
        rw [List.getElem?_modify_ne _ _ (Ne.symm hk)]
        exact hO' k hk)
  have hi1 : i < g1.ball_object_list.length := by rw [hS1.balls]; exact hi
  obtain ⟨idx, h2⟩ := goal_loop_spec m i g1 hi1
  rw [h1]
  simp only [Option.bind_eq_bind, Option.some_bind, h2]
  rw [poke_eq_some _ _ _ (by simpa using hi1)]
  have hfull : D.take g.dozer_object_list.length = D := by
    rw [hD.1]; exact List.take_length D
  refine ⟨_, rfl, ⟨hS1.dozers, ?_, hS1.cylinders, hS1.wheel1, hS1.wheel2, hS1.rotation⟩,
    hD1, ?_, ?_⟩
  · simp [hS1.balls]
  · show (List.modify _ i g1.ball_object_list)[i]? = _
    rw [List.getElem?_modify_eq, hB1, hfull]
    rfl
  · intro k hk
    show (List.modify _ i g1.ball_object_list)[k]? = _
    rw [List.getElem?_modify_ne _ _ (Ne.symm hk)]
    exact hO1 k hk

/-- The loop of lines 487-526, exactly: every ball goes through the vehicle
tests and the integration step. -/
theorem ball_pass_exact (m : Libm F) (D : List (Transform F)) (g : Game F)
    (hD : SameMotion D g.dozer_object_list) :
    ∃ g', loop g.ball_object_list.length (ball_body m) g = some g' ∧ Shape g g' ∧
      SameMotion D g'.dozer_object_list ∧
      ∀ (k : Nat) (b : Transform F), g.ball_object_list[k]? = some b →
        g'.ball_object_list[k]? = some (ball_integrate m (pushed m D b)) := by
  obtain ⟨g2, e2, hS2, hD2, hB2⟩ := loop_invariant g.ball_object_list.length (ball_body m)
    (fun i g' => Shape g g' ∧ SameMotion D g'.dozer_object_list ∧
      ∀ (k : Nat) (b : Transform F), g.ball_object_list[k]? = some b →
        g'.ball_object_list[k]? =
          some (if k < i then ball_integrate m (pushed m D b) else b)) g
    ⟨Shape.refl _, hD, fun k b hk => by simpa using hk⟩
    (by
      rintro i g' hi ⟨hS, hD', hB'⟩
      have hbi := hB' i _ (List.getElem?_eq_getElem hi)
      rw [if_neg (lt_irrefl i)] at hbi
      obtain ⟨g'', e, hS', hD'', hB'', hO''⟩ := ball_body_exact m D i g' _ hbi hD'
      refine ⟨g'', e, hS.trans hS', hD'', ?_⟩
      intro k b hk
      by_cases hki : k = i
      · subst hki
        rw [hB'', if_pos (Nat.lt_succ_self k)]
        rw [List.getElem?_eq_getElem hi] at hk
        cases hk
        rfl
      · rw [hO'' k hki, hB' k b hk]
        congr 1
        by_cases hlt : k < i
        · rw [if_pos hlt, if_pos (Nat.lt_succ_of_lt hlt)]
        · rw [if_neg hlt, if_neg (by omega)])
  refine ⟨g2, e2, hS2, hD2, ?_⟩
  intro k b hk
  rw [hB2 k b hk, if_pos (List.getElem?_eq_some_iff.1 hk).1]

/-- The loop of lines 530-541 succeeds and carries an elementwise invariant of
the spheres that speed writes and border_collision keep. -/
theorem sphere_pass_preserves (m : Libm F) (P : Nat → Transform F → Prop)
    (hs : ∀ k b s, P k b → P k { b with speed := s })
    (hbc : ∀ k b, P k b → P k (border_collision b))
    (g : Game F) (hB : AllIdx P g.ball_object_list) :
    ∃ g', loop g.ball_object_list.length (sphere_body m) g = some g' ∧ Shape g g' ∧
      g'.dozer_object_list = g.dozer_object_list ∧ AllIdx P g'.ball_object_list := by
  exact loop_invariant g.ball_object_list.length (sphere_body m)
    (fun _ g' => Shape g g' ∧ g'.dozer_object_list = g.dozer_object_list ∧
      AllIdx P g'.ball_object_list) g
    ⟨Shape.refl _, rfl, hB⟩
    (by
      rintro i g' hi ⟨hS, hD', hB'⟩
      obtain ⟨g'', e, hS', hD'', hB''⟩ := sphere_body_preserves m P hs hbc i g'
        (by rw [hS.balls]; exact hi) hB'
      exact ⟨g'', e, hS.trans hS', hD''.trans hD', hB''⟩)

omit [LinearOrderedField F] in
theorem sameMotion_refl (l : List (Transform F)) : SameMotion l l :=
  ⟨rfl, fun k c d hc hd => by rw [hc] at hd; cases hd; exact ⟨rfl, rfl⟩⟩

/-- The frame update on the spheres: with at least two vehicles it completes,
keeps their number, and leaves every sphere with the position, rotation and
scale it has after its vehicle tests (against the vehicles as the vehicle loop
left them) and its integration step. -/
theorem update_balls (m : Libm F) (g : Game F) (h2 : 2 ≤ g.dozer_object_list.length) :
    ∃ g1 g', update_dozers m g = some g1 ∧ update m g = some g' ∧
      g1.dozer_object_list.length = g.dozer_object_list.length ∧
      g'.ball_object_list.length = g.ball_object_list.length ∧
      ∀ (k : Nat) (b : Transform F), g.ball_object_list[k]? = some b →
        ∃ b', g'.ball_object_list[k]? = some b' ∧
          b'.rotation = (ball_integrate m (pushed m g1.dozer_object_list b)).rotation ∧
          b'.position = (ball_integrate m (pushed m g1.dozer_object_list b)).position ∧
          b'.scale = (ball_integrate m (pushed m g1.dozer_object_list b)).scale ∧
          b'.velocity.normSq
            = (ball_integrate m (pushed m g1.dozer_object_list b)).velocity.normSq := by
  obtain ⟨g1, e1, hl1, hb1, _⟩ := update_dozers_preserves m (fun _ _ => True)
    (fun _ _ _ _ => trivial) (fun _ _ _ _ _ => trivial) g h2 (fun _ _ _ => trivial)
  obtain ⟨g2, e2, hS2, _, hB2⟩ := ball_pass_exact m g1.dozer_object_list
    ({ g1 with index_delete := -1 } : Game F) (sameMotion_refl _)
  obtain ⟨g3, e3, hS3, _, hB3⟩ := sphere_pass_preserves m
    (fun k x => ∃ y, g2.ball_object_list[k]? = some y ∧ x.rotation = y.rotation ∧
      x.position = y.position ∧ x.scale = y.scale ∧ x.velocity.normSq = y.velocity.normSq)
    (fun _ _ _ h => h)
    (fun k x ⟨y, hy, hr, hp, hs, hv⟩ => ⟨y, hy,
      ((border_collision_idempotent x).2.2.1).trans hr,
      ((border_collision_idempotent x).2.1).trans hp,
      ((border_collision_idempotent x).2.2.2.1).trans hs,
      (border_collision_velocity_normSq x).trans hv⟩)
    g2 (fun k x hk => ⟨x, hk, rfl, rfl, rfl, rfl⟩)
  refine ⟨g1, _, e1, update_of_passes m g g1 g2 g3 e1 e2 e3, hl1, ?_, ?_⟩
  · exact (hS3.balls.trans hS2.balls).trans (congrArg List.length hb1)
  · intro k b hk
    have hk1 : ({ g1 with index_delete := -1 } : Game F).ball_object_list[k]? = some b := by
      show g1.ball_object_list[k]? = some b
      rw [hb1]; exact hk
    have hk2 := hB2 k b hk1
    have hklt : k < g3.ball_object_list.length := by
      rw [hS3.balls]; exact (List.getElem?_eq_some_iff.1 hk2).1
    obtain ⟨y, hy, hr, hp, hs, hv⟩ := hB3 k _ (List.getElem?_eq_getElem hklt)
    rw [hk2] at hy
    cases hy
    exact ⟨_, List.getElem?_eq_getElem hklt, hr, hp, hs, hv⟩

/-- Beyond the contact distance `dozer_collision` leaves the ball as it is. -/
theorem dozer_collision_far (m : Libm F) (hm : m.SqrtLaw) (d b : Transform F)
    (h : (2 * collision_radius) ^ 2 < planar_dist_sq d.position b.position) :
    dozer_collision m d b = b := by
  have key := planar_distance_le_iff m hm d.position b.position _ two_radius_nonneg
  simp only [dozer_collision]
  rw [if_neg]
  intro hc
  exact absurd (key.1 hc) (not_le.2 h)

theorem pushed_nil (m : Libm F) (b : Transform F) : pushed m [] b = b := rfl

theorem pushed_cons (m : Libm F) (d : Transform F) (D : List (Transform F)) (b : Transform F) :
    pushed m (d :: D) b = pushed m D (dozer_collision m d b) := rfl

theorem pushed_rotation (m : Libm F) (D : List (Transform F)) (b : Transform F) :
    (pushed m D b).rotation = b.rotation := by
  induction D generalizing b with
  | nil => rfl
  | cons d D ih => rw [pushed_cons, ih, dozer_collision_rotation]

theorem dozer_collision_speed (m : Libm F) (d b : Transform F) :
    (dozer_collision m d b).speed = b.speed ∨ (dozer_collision m d b).speed = d.speed := by
  simp only [dozer_collision]
  split
  · exact Or.inr rfl
  · exact Or.inl rfl

/-- After the vehicle tests the ball has its own speed or the speed of one of
the vehicles. -/
theorem pushed_speed (m : Libm F) (D : List (Transform F)) (b : Transform F) :
    (pushed m D b).speed = b.speed ∨ ∃ d ∈ D, (pushed m D b).speed = d.speed := by
  induction D generalizing b with
  | nil => exact Or.inl rfl
  | cons d D ih =>
    rw [pushed_cons]
    rcases ih (dozer_collision m d b) with h | ⟨c, hc, h⟩
    · rcases dozer_collision_speed m d b with h' | h'
      · exact Or.inl (h.trans h')
      · exact Or.inr ⟨d, List.mem_cons_self _ _, h.trans h'⟩
    · exact Or.inr ⟨c, List.mem_cons_of_mem _ hc, h⟩

theorem dozer_collision_position (m : Libm F) (d b : Transform F) :
    (dozer_collision m d b).position = b.position := by
  simp only [dozer_collision]
  split <;> rfl

/-- A ball beyond the contact distance of every vehicle passes the vehicle
tests unchanged. -/
theorem pushed_far (m : Libm F) (hm : m.SqrtLaw) (D : List (Transform F)) (b : Transform F)
    (h : ∀ d ∈ D, (2 * collision_radius) ^ 2 < planar_dist_sq d.position b.position) :
    pushed m D b = b := by
  induction D with
  | nil => rfl
  | cons d D ih =>
    rw [pushed_cons, dozer_collision_far m hm d b (h d (List.mem_cons_self _ _))]
    exact ih (fun c hc => h c (List.mem_cons_of_mem _ hc))

/-- Lines 508-513: the rotation is assigned only on the branch
`speed > 0.000001`, from the speed after friction and the velocity as it is. -/
theorem ball_integrate_rotation_eq (m : Libm F) (x : Transform F) :
    (ball_integrate m x).rotation =
      if x.speed ≤ 0.000001 then x.rotation
      else angleAxis m (x.speed * friction) x.velocity := by
  simp only [ball_integrate]
  split_ifs <;> rfl

theorem ball_integrate_velocity (m : Libm F) (x : Transform F) :
    (ball_integrate m x).velocity = x.velocity := by
  simp only [ball_integrate]
  split_ifs <;> rfl



/-- The vehicle tests read only the positions and speeds of the vehicles. -/
theorem pushed_congr (m : Libm F) (D l : List (Transform F)) (b : Transform F)
    (h : SameMotion D l) : pushed m l b = pushed m D b := by
  induction D generalizing l b with
  | nil =>
    have : l = [] := List.length_eq_zero.1 h.1
    rw [this]
  | cons c D ih =>
    match l, h with
    | [], h => exact absurd h.1 (by simp)
    | d :: l, h =>
      obtain ⟨hp, hs⟩ := h.2 0 c d (by simp) (by simp)
      rw [pushed_cons, pushed_cons, dozer_collision_congr m c d b hp hs]
      refine ih l _ ⟨?_, ?_⟩
      · have := h.1
        simp only [List.length_cons, add_left_inj] at this
        exact this
      · intro k c' d' hc hd
        exact h.2 (k + 1) c' d' (by simpa using hc) (by simpa using hd)

/-! ### Rotations after the frame, exactly -/

/-- C10 (amended): with sin^2 + cos^2 = 1, at least two vehicles and every
rotation a unit quaternion before the update, the frame update completes and
keeps the numbers of vehicles and spheres, and the rotations after it are these.
A vehicle beyond the first two keeps its rotation, a unit quaternion.  Each of
the first two vehicles gets angleAxis(sin(a * speed), (0, 0, sin a + cos a)),
with a its move angle and speed its speed after the controls, of squared norm
1 + 2 sin(a) cos(a) sin^2(sin(a * speed) / 2): a unit quaternion exactly when
sin(a) cos(a) sin^2(sin(a * speed) / 2) = 0; so it is when the vehicle is idle
(speed 0, with sin 0 = 0: the rotation (cos 0, 0, 0, 0)) and when its velocity
after the frame is axis-aligned.  For a sphere, let s and v be the speed and
velocity it has after the dozer_collision tests against the vehicles as they
stand after the frame (s is its own speed or that of a vehicle).  If
s <= 0.000001 the sphere keeps its rotation, a unit quaternion, whatever its
velocity; so does every sphere with speed <= 0.000001 when every vehicle has
speed <= 0.000001.  If s > 0.000001 the sphere gets angleAxis(s * friction, v),
of squared norm 1 + (|v|^2 - 1) sin^2(s * friction / 2) with |v|^2 the squared
length of the velocity also after the frame: a unit quaternion exactly when
(|v|^2 - 1) sin^2(s * friction / 2) = 0, in particular when |v|^2 = 1. -/
theorem update_rotation_unit_iff (m : Libm F) (ht : m.TrigLaw) (g : Game F)
    (h2 : 2 ≤ g.dozer_object_list.length)
    (hD : ∀ d ∈ g.dozer_object_list, d.rotation.IsUnit)
    (hB : ∀ b ∈ g.ball_object_list, b.rotation.IsUnit) :
    ∃ g', update m g = some g' ∧
      g'.dozer_object_list.length = g.dozer_object_list.length ∧
      g'.ball_object_list.length = g.ball_object_list.length ∧
      (∀ (k : Nat) (d : Transform F), g.dozer_object_list[k]? = some d →
        ∃ d', g'.dozer_object_list[k]? = some d' ∧
          d'.position = vehicle_position_after m g k d.position d.speed ∧
          d'.speed = vehicle_speed_after g k d.speed ∧
          (2 ≤ k → d'.rotation = d.rotation ∧ d'.rotation.IsUnit) ∧
          (k < 2 →
            d'.rotation = angleAxis m (m.sin (move_angle m g k * d'.speed))
              ⟨0, 0, m.sin (move_angle m g k) + m.cos (move_angle m g k)⟩ ∧
            d'.rotation.normSq = 1 + 2 * m.sin (move_angle m g k) * m.cos (move_angle m g k)
              * m.sin (m.sin (move_angle m g k * d'.speed) * 0.5) ^ 2 ∧
            (d'.rotation.IsUnit ↔ m.sin (move_angle m g k) * m.cos (move_angle m g k)
              * m.sin (m.sin (move_angle m g k * d'.speed) * 0.5) ^ 2 = 0) ∧
            (m.sin 0 = 0 → d'.speed = 0 →
              d'.rotation = ⟨m.cos 0, 0, 0, 0⟩ ∧ d'.rotation.IsUnit) ∧
            (d'.velocity.x * d'.velocity.y = 0 → d'.rotation.IsUnit))) ∧
      (∀ (k : Nat) (b : Transform F), g.ball_object_list[k]? = some b →
        ∃ b', g'.ball_object_list[k]? = some b' ∧
          ((pushed m g'.dozer_object_list b).speed = b.speed ∨
            ∃ c ∈ g'.dozer_object_list, (pushed m g'.dozer_object_list b).speed = c.speed) ∧
          ((pushed m g'.dozer_object_list b).speed ≤ 0.000001 →
            b'.rotation = b.rotation ∧ b'.rotation.IsUnit) ∧
          (0.000001 < (pushed m g'.dozer_object_list b).speed →
            b'.rotation = angleAxis m ((pushed m g'.dozer_object_list b).speed * friction)
              (pushed m g'.dozer_object_list b).velocity ∧
            b'.velocity.normSq = (pushed m g'.dozer_object_list b).velocity.normSq ∧
            b'.rotation.normSq = 1 + (b'.velocity.normSq - 1)
              * m.sin ((pushed m g'.dozer_object_list b).speed * friction * 0.5) ^ 2 ∧
            (b'.rotation.IsUnit ↔ (b'.velocity.normSq - 1)
              * m.sin ((pushed m g'.dozer_object_list b).speed * friction * 0.5) ^ 2 = 0)) ∧
          (b.speed ≤ 0.000001 → (∀ c ∈ g'.dozer_object_list, c.speed ≤ 0.000001) →
            b'.rotation = b.rotation ∧ b'.rotation.IsUnit) ∧
          (b'.velocity.normSq = 1 → b'.rotation.IsUnit)) := by
  obtain ⟨g1, g', e1, e, _, hlb, hb⟩ := update_balls m g h2
  obtain ⟨h, eh, hl, _, _, _, hd⟩ := update_vehicles m g h2
  obtain ⟨h', eh', hsuf, _⟩ := update_unit_rotation_sufficient m ht g h2 hD hB
  obtain ⟨h'', eh'', hl1, _, _, _, hd1⟩ := update_after_dozers m g g1 e1
  rw [e] at eh eh' eh''
  cases eh; cases eh'; cases eh''
  have hsame : SameMotion g1.dozer_object_list g'.dozer_object_list := by
    refine ⟨hl1, ?_⟩
    intro k c d hc hk
    obtain ⟨c', hc', hp, _, _, hs⟩ := hd1 k d hk
    rw [hc] at hc'
    cases hc'
    exact ⟨hp, hs⟩
  have hpush : ∀ b : Transform F,
      pushed m g1.dozer_object_list b = pushed m g'.dozer_object_list b :=
    fun b => (pushed_congr m _ _ b hsame).symm
  refine ⟨g', e, hl, hlb, ?_, ?_⟩
  · intro k d hk
    obtain ⟨d', hd', hp, hs, hq, _⟩ := hd k d hk
    refine ⟨d', hd', hp, hs, ?_, ?_⟩
    · intro hk2
      have hq' : d'.rotation = d.rotation := by
        rw [hq, vehicle_rotation_after, if_neg (not_lt.2 hk2)]
      exact ⟨hq', by rw [hq']; exact hD d (List.getElem?_mem hk)⟩
    · intro hk2
      have hq' : d'.rotation = angleAxis m (m.sin (move_angle m g k * d'.speed))
          ⟨0, 0, m.sin (move_angle m g k) + m.cos (move_angle m g k)⟩ := by
        rw [hq, hs, vehicle_rotation_after, if_pos hk2]
      have hn : d'.rotation.normSq = 1 + 2 * m.sin (move_angle m g k) * m.cos (move_angle m g k)
          * m.sin (m.sin (move_angle m g k * d'.speed) * 0.5) ^ 2 := by
        rw [hq']
        exact dozer_move_rotation_normSq m ht (move_angle m g k) d'
      refine ⟨hq', hn, ?_, ?_, fun hv => hsuf k d' hd' (Or.inr hv)⟩
      · unfold Quat.IsUnit
        rw [hn]
        constructor
        · intro hx; linarith
        · intro hx; linarith
      · intro h0 hs0
        have hq0 : d'.rotation = ⟨m.cos 0, 0, 0, 0⟩ := by
          rw [hq', hs0]
          simp only [angleAxis, mul_zero, zero_mul, h0]
        refine ⟨hq0, ?_⟩
        unfold Quat.IsUnit
        rw [hn, hs0]
        simp only [mul_zero, zero_mul, h0]
        norm_num
  · intro k b hk
    obtain ⟨b', hb', hq, _, _, hv⟩ := hb k b hk
    rw [ball_integrate_velocity, hpush] at hv
    rw [ball_integrate_rotation_eq, hpush] at hq
    have hunit : b.rotation.IsUnit := hB b (List.getElem?_mem hk)
    have hrest : (pushed m g'.dozer_object_list b).speed ≤ 0.000001 →
        b'.rotation = b.rotation ∧ b'.rotation.IsUnit := by
      intro hle
      have hq' : b'.rotation = b.rotation := by
        rw [hq, if_pos hle, pushed_rotation]
      exact ⟨hq', by rw [hq']; exact hunit⟩
    have hmove : 0.000001 < (pushed m g'.dozer_object_list b).speed →
        b'.rotation = angleAxis m ((pushed m g'.dozer_object_list b).speed * friction)
          (pushed m g'.dozer_object_list b).velocity ∧
        b'.velocity.normSq = (pushed m g'.dozer_object_list b).velocity.normSq ∧
        b'.rotation.normSq = 1 + (b'.velocity.normSq - 1)
          * m.sin ((pushed m g'.dozer_object_list b).speed * friction * 0.5) ^ 2 ∧
        (b'.rotation.IsUnit ↔ (b'.velocity.normSq - 1)
          * m.sin ((pushed m g'.dozer_object_list b).speed * friction * 0.5) ^ 2 = 0) := by
      intro hlt
      have hq' : b'.rotation = angleAxis m ((pushed m g'.dozer_object_list b).speed * friction)
          (pushed m g'.dozer_object_list b).velocity := by
        rw [hq, if_neg (not_le.2 hlt)]
      have hn : b'.rotation.normSq = 1 + (b'.velocity.normSq - 1)
          * m.sin ((pushed m g'.dozer_object_list b).speed * friction * 0.5) ^ 2 := by
        rw [hq', angleAxis_normSq m ht, hv]
      refine ⟨hq', hv, hn, ?_⟩
      unfold Quat.IsUnit
      rw [hn]
      constructor
      · intro hx; linarith
      · intro hx; linarith
    refine ⟨b', hb', pushed_speed m _ b, hrest, hmove, ?_, ?_⟩
    · intro hb0 hc0
      refine hrest ?_
      rcases pushed_speed m g'.dozer_object_list b with hp | ⟨c, hc, hp⟩
      · rw [hp]; exact hb0
      · rw [hp]; exact hc0 c hc
    · intro hv1
      rcases le_or_lt (pushed m g'.dozer_object_list b).speed 0.000001 with hle | hlt
      · exact (hrest hle).2
      · refine (hmove hlt).2.2.2.2 ?_
        rw [hv1]
        ring

/-- C10 (amended) on the real numbers, at two idle vehicles of heading 0.02 and
a sphere at rest with a velocity of length 2: after the frame all three have
the identity rotation. -/
theorem update_rotation_unit_iff_witness :
    ∃ (g' : Game ℝ) (d0 d1 b' : Transform ℝ),
      update ⟨Real.sqrt, Real.sin, Real.cos, Real.pi⟩ resting_game = some g' ∧
      g'.dozer_object_list.length = 2 ∧ g'.ball_object_list.length = 1 ∧
      g'.dozer_object_list[0]? = some d0 ∧ d0.rotation = ⟨1, 0, 0, 0⟩ ∧ d0.rotation.IsUnit ∧
      g'.dozer_object_list[1]? = some d1 ∧ d1.rotation = ⟨1, 0, 0, 0⟩ ∧ d1.rotation.IsUnit ∧
      g'.ball_object_list[0]? = some b' ∧ b'.rotation = ⟨1, 0, 0, 0⟩ ∧ b'.rotation.IsUnit := by
  obtain ⟨g', e, hl, hlb, hveh, hball⟩ := update_rotation_unit_iff
    ⟨Real.sqrt, Real.sin, Real.cos, Real.pi⟩ real_trigLaw resting_game
    (by simp [resting_game])
    (by simp [resting_game, mk_transform, Quat.IsUnit, Quat.normSq])
    (by simp [resting_game, mk_transform, Quat.IsUnit, Quat.normSq])
  obtain ⟨d0, h0, _, hs0, _, hk0⟩ := hveh 0 (mk_transform ⟨2, 0, 0⟩ ⟨1, 0, 0⟩ 0) rfl
  obtain ⟨d1, h1, _, hs1, _, hk1⟩ := hveh 1 (mk_transform ⟨-2, 0, 0⟩ ⟨1, 0, 0⟩ 0) rfl
  obtain ⟨b', hb', _, _, _, hrest, _⟩ := hball 0 (mk_transform ⟨0, 0, 0.2⟩ ⟨2, 0, 0⟩ 0) rfl
  have hz0 : d0.speed = 0 := by
    rw [hs0]; simp [vehicle_speed_after, control_speed, resting_game]
  have hz1 : d1.speed = 0 := by
    rw [hs1]; simp [vehicle_speed_after, control_speed, resting_game]
  have hr0 := (hk0 (by norm_num)).2.2.2.1 Real.sin_zero hz0
  have hr1 := (hk1 (by norm_num)).2.2.2.1 Real.sin_zero hz1
  have hlen : g'.dozer_object_list.length = 2 := by rw [hl]; rfl
  have hall : ∀ c ∈ g'.dozer_object_list, c.speed ≤ 0.000001 := by
    intro c hc
    obtain ⟨k, hk, hck⟩ := List.getElem_of_mem hc
    have hck' : g'.dozer_object_list[k]? = some c := by
      rw [List.getElem?_eq_getElem hk, hck]
    rw [hlen] at hk
    interval_cases k
    · rw [h0] at hck'; cases hck'; rw [hz0]; norm_num
    · rw [h1] at hck'; cases hck'; rw [hz1]; norm_num
  have hrb := hrest (by norm_num [mk_transform]) hall
  simp only [Real.cos_zero] at hr0 hr1
  exact ⟨g', d0, d1, b', e, hlen, by rw [hlb]; rfl, h0, hr0.1, hr0.2, h1, hr1.1, hr1.2,
    hb', hrb.1, hrb.2⟩

/-- C10 as stated fails for vehicles and for spheres.  From two vehicles at
rest with identity rotation, headings 0 and the key `a` held, one frame leaves
the first vehicle with a rotation of squared norm
1 + 2 sin(0.01 pi) cos(0.01 pi) sin^2(sin(0.0001 pi) / 2) > 1.  From two idle
vehicles and a sphere with identity rotation, speed 0.01 and velocity (2, 0, 0),
far from both vehicles, one frame leaves the sphere with a rotation of squared
norm 1 + 3 sin^2(0.0045) > 1. -/
theorem update_breaks_unit_rotation :
    ((∀ d ∈ (first_frame_game : Game ℝ).dozer_object_list, d.rotation.IsUnit) ∧
     (∀ b ∈ (first_frame_game : Game ℝ).ball_object_list, b.rotation.IsUnit) ∧
     ∃ g' d, update ⟨Real.sqrt, Real.sin, Real.cos, Real.pi⟩ (first_frame_game : Game ℝ)
        = some g' ∧
      g'.dozer_object_list[0]? = some d ∧ ¬ d.rotation.IsUnit) ∧
    ((∀ d ∈ (spinning_game : Game ℝ).dozer_object_list, d.rotation.IsUnit) ∧
     (∀ b ∈ (spinning_game : Game ℝ).ball_object_list, b.rotation.IsUnit) ∧
     ∃ g' b, update ⟨Real.sqrt, Real.sin, Real.cos, Real.pi⟩ (spinning_game : Game ℝ)
        = some g' ∧
      g'.ball_object_list[0]? = some b ∧ ¬ b.rotation.IsUnit) := by
  have hpi := Real.pi_gt_three
  have hpi' := Real.pi_le_four
  constructor
  · refine ⟨by simp [first_frame_game, mk_transform, Quat.IsUnit, Quat.normSq],
      by simp [first_frame_game], ?_⟩
    have hd : heading_delta (F := ℝ) ⟨1, 0, 0, 0⟩ = 0.01 := by norm_num [heading_delta]
    have hc : control_speed (F := ℝ) ⟨1, 0, 0, 0⟩ 0 = 0.01 := by norm_num [control_speed]
    have h1 : 0 < Real.sin (0.01 * Real.pi) :=
      Real.sin_pos_of_pos_of_lt_pi (by positivity) (by linarith)
    have h2 : 0 < Real.cos (0.01 * Real.pi) :=
      Real.cos_pos_of_mem_Ioo ⟨by linarith, by linarith⟩
    have h3 : 0 < Real.sin (0.01 * Real.pi * 0.01) :=
      Real.sin_pos_of_pos_of_lt_pi (by positivity) (by linarith)
    have h4 : Real.sin (0.01 * Real.pi * 0.01) ≤ 1 := Real.sin_le_one _
    have h5 : 0 < Real.sin (Real.sin (0.01 * Real.pi * 0.01) * 0.5) :=
      Real.sin_pos_of_pos_of_lt_pi (by positivity) (by linarith)
    refine ⟨_, _, update_no_balls _ _ _ _ _ _ _ _ _ _, rfl, ?_⟩
    show ¬ (dozer_move _ ((0 + heading_delta ⟨1, 0, 0, 0⟩) * Real.pi) _).rotation.normSq = 1
    rw [dozer_move_rotation_normSq _ real_trigLaw]
    simp only [mk_transform, hd, hc, zero_add]
    have : 0 < 2 * Real.sin (0.01 * Real.pi) * Real.cos (0.01 * Real.pi) *
        Real.sin (Real.sin (0.01 * Real.pi * 0.01) * 0.5) ^ 2 := by positivity
    intro h
    linarith
  · refine ⟨by simp [spinning_game, mk_transform, Quat.IsUnit, Quat.normSq],
      by simp [spinning_game, mk_transform, Quat.IsUnit, Quat.normSq], ?_⟩
    obtain ⟨g1, g', e1, e, _, _, hb⟩ := update_balls
      ⟨Real.sqrt, Real.sin, Real.cos, Real.pi⟩ (spinning_game : Game ℝ) (by simp [spinning_game])
    obtain ⟨b', hb', hq, _⟩ := hb 0 (mk_transform ⟨0, 0, 0.2⟩ ⟨2, 0, 0⟩ 0.01) rfl
    have e1' := update_dozers_eq ⟨Real.sqrt, Real.sin, Real.cos, Real.pi⟩
      (mk_transform ⟨2, 0, 0⟩ ⟨1, 0, 0⟩ 0) (mk_transform ⟨-2, 0, 0⟩ ⟨1, 0, 0⟩ 0) []
      [mk_transform ⟨0, 0, 0.2⟩ ⟨2, 0, 0⟩ 0.01] [] ⟨0, 0, 0, 0⟩ ⟨0, 0, 0, 0⟩ 0 0 (-1)
    have hg1 := Option.some.inj (e1.symm.trans e1')
    have hfar : ∀ d ∈ g1.dozer_object_list, (2 * collision_radius) ^ 2
        < planar_dist_sq d.position
          (mk_transform ⟨0, 0, 0.2⟩ ⟨2, 0, 0⟩ 0.01 : Transform ℝ).position := by
      rw [hg1]
      intro d hd
      simp only [List.mem_cons, List.mem_singleton, List.not_mem_nil, or_false] at hd
      rcases hd with rfl | rfl <;>
        norm_num [planar_dist_sq, dozer_move, control_speed, Vec3.add, Vec3.smul,
          mk_transform, collision_radius]
    have hfar := pushed_far ⟨Real.sqrt, Real.sin, Real.cos, Real.pi⟩ real_sqrtLaw _ _ hfar
    rw [hfar, ball_integrate_rotation_eq] at hq
    have hne : ¬ ((mk_transform ⟨0, 0, 0.2⟩ ⟨2, 0, 0⟩ 0.01 : Transform ℝ).speed ≤ 0.000001) := by
      norm_num [mk_transform]
    rw [if_neg hne] at hq
    refine ⟨g', b', e, hb', ?_⟩
    unfold Quat.IsUnit
    rw [hq, angleAxis_normSq _ real_trigLaw]
    have hs : 0 < Real.sin (0.01 * friction * 0.5) :=
      Real.sin_pos_of_pos_of_lt_pi (by norm_num [friction]) (by norm_num [friction]; linarith)
    have : 0 < (((2 : ℝ) ^ 2 + 0 ^ 2 + 0 ^ 2) - 1) * Real.sin (0.01 * friction * 0.5) ^ 2 := by
      positivity
    simp only [mk_transform, Vec3.normSq]
    intro h
    linarith

end Theorems

end Game3
